import Mathlib

/-!
Shallow embedding of the orchestration engine of `src/src/bbox.ts` (class
`Bbox` and its data types).  TypeScript objects are modelled as Lean
structures; JS string-keyed objects (`{[key: string]: T}`) are modelled as
association lists with unique keys; `undefined`-able fields are `Option`s;
thrown `Error`s are modelled by an error monad whose state survives a
throw (JS mutations performed before a `throw` persist).  External
collaborators (`ProcessManager`, `BboxDiscovery`) are modelled as an
abstract `World` plus an effect trace: every call into a collaborator is
recorded as an `Effect`.  `console.log` calls are not modelled (no effect).
-/

namespace Bbox

/-- ServiceProcessStatus enum of bbox.ts. -/
inductive ServiceProcessStatus where
  | Unknown
  | Online
  | Offline
deriving DecidableEq, Repr

/-- Runtime enum of bbox.ts. -/
inductive Runtime where
  | Local
  | Docker
deriving DecidableEq, Repr

/-- A fragment of JS values sufficient for the `any`-typed spec fields
(`values`, `env`).  Floating point numbers are restricted to integers. -/
inductive JsValue where
  | vNull
  | vBool (b : Bool)
  | vNum (n : Int)
  | vStr (s : String)
deriving DecidableEq, Repr

/-- JS truthiness on the modelled value fragment. -/
def JsValue.truthy : JsValue → Bool
  | .vNull => false
  | .vBool b => b
  | .vNum n => n != 0
  | .vStr s => s != ""

/-- Runnable = string | RunnableFn.  A command string is delegated to the
process manager; a function runs in-process.  Both are identified by a
string for the purposes of the world model. -/
inductive Runnable where
  | cmd (s : String)
  | fn (name : String)
deriving DecidableEq, Repr

/-- RunnableSpec = Runnable | Runnable[].  (The TS type does not allow
nested arrays.) -/
inductive RunnableSpec where
  | single (r : Runnable)
  | many (rs : List Runnable)
deriving DecidableEq, Repr

/-- JS truthiness of a RunnableSpec value: an empty command string is
falsy, everything else (functions, arrays) is truthy. -/
def RunnableSpec.truthy : RunnableSpec → Bool
  | .single (.cmd s) => s != ""
  | .single (.fn _) => true
  | .many _ => true

/-- The list of runnables executed by `runInteractive` for a spec. -/
def runnablesOf : RunnableSpec → List Runnable
  | .single r => [r]
  | .many rs => rs

/-- ModuleState of bbox.ts. -/
structure ModuleState where
  ranMigrations : List String
  ranAllMigrations : Bool
  built : Bool
deriving DecidableEq, Repr

/-- ServiceSpec of bbox.ts, restricted to the fields the orchestration
engine reads (port/subServices/healthCheck etc. are only consumed by the
out-of-scope docker-compose and proxy generators). -/
structure ServiceSpec where
  name : String
  dependencies : Option (List String)
  valueProviders : Option (List (String × String))
  values : Option (List (String × JsValue))
  env : List (String × JsValue)
deriving DecidableEq, Repr

/-- ServiceState of bbox.ts. -/
structure ServiceState where
  processStatus : ServiceProcessStatus
deriving DecidableEq, Repr

/-- Service of bbox.ts.  The `module` back-reference is represented by the
pairing returned from service lookup instead of a circular field. -/
structure Service where
  name : String
  spec : ServiceSpec
  state : ServiceState
deriving DecidableEq, Repr

/-- ModuleSpec of bbox.ts, restricted to the fields the engine reads. -/
structure ModuleSpec where
  name : String
  build : Option RunnableSpec
  migrations : Option (List (String × RunnableSpec))
deriving DecidableEq, Repr

/-- Module of bbox.ts, restricted to the fields the engine reads
(filesystem path bookkeeping fields are omitted). -/
structure Module where
  name : String
  spec : ModuleSpec
  state : ModuleState
  services : List Service
  availableRuntimes : List Runtime
deriving DecidableEq, Repr

/-- Partial ModuleState staged by stageModuleState: only the fields that
are ever staged (`built`, `ranAllMigrations`). -/
structure StagedModuleState where
  built : Option Bool
  ranAllMigrations : Option Bool
deriving DecidableEq, Repr

/-- Partial ServiceState staged by stageServiceState. -/
structure StagedServiceState where
  processStatus : Option ServiceProcessStatus
deriving DecidableEq, Repr

/-- One entry of ctx.stagedStates: either a module-state or a
service-state delta.  Targets are identified by name (names are unique
per the discovery invariant; the TS code holds object references). -/
inductive StagedChange where
  | module (moduleName : String) (state : StagedModuleState)
  | service (serviceName : String) (state : StagedServiceState)
deriving DecidableEq, Repr

/-- Calls into the external collaborators, recorded as a trace. -/
inductive Effect where
  | runInteractive (moduleName : String) (r : Runnable)
  | saveState (moduleName : String) (st : ModuleState)
  | startAndWait (serviceName : String)
  | stopAndWait (serviceName : String)
  | procRun (moduleName : String) (runnable : String)
  | findProc (serviceName : String)
deriving DecidableEq, Repr

/-- The staged-state queue part of Ctx of bbox.ts. -/
structure Ctx where
  stagedStates : List StagedChange
deriving DecidableEq, Repr

/-- The private `modules` field of class Bbox; `none` models the
uninitialized (pre-`init`) state. -/
structure BboxState where
  modules : Option (List Module)
deriving DecidableEq, Repr

/-- Full machine state: the Bbox registry, the execution context queue and
the trace of collaborator effects performed so far. -/
structure S where
  bbox : BboxState
  ctx : Ctx
  trace : List Effect
deriving DecidableEq, Repr

/-- The external world: which runnables fail when executed, what
`processManager.run` outputs, and what `findServiceProcess` reports. -/
structure World where
  fails : Runnable → Bool
  runOutput : String → String → JsValue
  findServiceProcess : String → Option ServiceProcessStatus

/-- Result of a computation: JS state mutations performed before a thrown
error persist, so the error case also carries the state. -/
inductive Res (α : Type) where
  | ok (a : α) (s : S)
  | err (e : String) (s : S)

/-- The computation monad: state passing with string errors. -/
def M (α : Type) : Type := S → Res α

def mPure {α : Type} (a : α) : M α := fun s => .ok a s

def mBind {α β : Type} (x : M α) (f : α → M β) : M β := fun s =>
  match x s with
  | .ok a s' => f a s'
  | .err e s' => .err e s'

instance : Monad M where
  pure := mPure
  bind := mBind

/-- Read the current state. -/
def getS : M S := fun s => .ok s s

/-- Transform the current state. -/
def modifyS (f : S → S) : M Unit := fun s => .ok () (f s)

/-- Throw an error (the state is kept, as JS mutations persist). -/
def throwE {α : Type} (e : String) : M α := fun s => .err e s

/-- Record a collaborator effect. -/
def emit (e : Effect) : M Unit :=
  modifyS fun s => { s with trace := s.trace ++ [e] }

/-- The state carried by a result, whether ok or error. -/
def Res.state {α : Type} : Res α → S
  | .ok _ s => s
  | .err _ s => s

/-- Lookup in a JS string-keyed object modelled as an association list
(first matching key, mirroring unique-key object semantics). -/
def lookupAssoc {α : Type} (l : List (String × α)) (k : String) : Option α :=
  (l.find? (fun p => p.1 == k)).map (fun p => p.2)

/-- modules.find(m => m.name === name) of getModule. -/
def findModuleByName (ms : List Module) (name : String) : Option Module :=
  ms.find? (fun m => m.name == name)

/-- The scan of getService: first module owning a service with the given
name, paired with that service. -/
def findServiceRes : List Module → String → Option (Module × Service)
  | [], _ => none
  | m :: rest, n =>
    match m.services.find? (fun sv => sv.name == n) with
    | some sv => some (m, sv)
    | none => findServiceRes rest n

/-- In-place mutation of a module reached through a reference: update the
first registry entry with the given name. -/
def updateFirst (name : String) (f : Module → Module) : List Module → List Module
  | [] => []
  | m :: rest =>
    if m.name == name then f m :: rest else m :: updateFirst name f rest

/-- Lexicographic comparison of character lists by code point, the order
used by JS Array.prototype.sort() on strings. -/
def charListLe : List Char → List Char → Bool
  | [], _ => true
  | _ :: _, [] => false
  | a :: as, b :: bs =>
    if a.val.toNat < b.val.toNat then true
    else if b.val.toNat < a.val.toNat then false
    else charListLe as bs

/-- Lexicographic string order (JS default sort comparison). -/
def strLeP (a b : String) : Prop := charListLe a.data b.data = true

instance : DecidableRel strLeP := fun a b =>
  inferInstanceAs (Decidable (charListLe a.data b.data = true))

/-- Array.prototype.sort() on string keys: lexicographic sort (insertion
sort; the keys are distinct so any comparison sort agrees). -/
def sortStrings (l : List String) : List String :=
  List.insertionSort strLeP l

/-- Bbox.getNotAppliedMigrations: Object.keys(spec.migrations).sort()
minus state.ranMigrations (lodash difference = order-preserving filter).
Object keys are unique, modelled by deduplication of the assoc keys. -/
def getNotAppliedMigrations (m : Module) : List String :=
  match m.spec.migrations with
  | none => []
  | some migs =>
    let migrationIds := sortStrings ((migs.map (fun p => p.1)).dedup)
    migrationIds.filter (fun id => !(m.state.ranMigrations.contains id))

/-- Error message of `Bbox.getModule` for a missing module. -/
def moduleNotFoundMsg (name : String) (ms : List Module) : String :=
  "Module \"" ++ name ++ "\" not found. All discovered modules: " ++
    String.intercalate ", " (ms.map (fun m => m.name))

/-- Error message of `Bbox.getService` for a missing service. -/
def serviceNotFoundMsg (name : String) : String :=
  "Service \"" ++ name ++ "\" not found."

/-- Pure core of Bbox.getModule over a given registry. -/
def getModuleCore (ms : List Module) (name : String) : Except String Module :=
  match findModuleByName ms name with
  | some m => .ok m
  | none => .error (moduleNotFoundMsg name ms)

/-- Pure core of Bbox.getService over a given registry. -/
def getServiceCore (ms : List Module) (name : String) :
    Except String (Module × Service) :=
  match findServiceRes ms name with
  | some r => .ok r
  | none => .error (serviceNotFoundMsg name)

/-- Bbox.getAllModules: fails when `init` has not populated the registry. -/
def getAllModules : M (List Module) := do
  let s ← getS
  match s.bbox.modules with
  | none => throwE "Modules not initialized"
  | some ms => pure ms

/-- Bbox.getModule. -/
def getModule (name : String) : M Module := do
  let ms ← getAllModules
  match getModuleCore ms name with
  | .ok m => pure m
  | .error e => throwE e

/-- Bbox.getService. -/
def getService (name : String) : M (Module × Service) := do
  let ms ← getAllModules
  match getServiceCore ms name with
  | .ok r => pure r
  | .error e => throwE e

/-- Read the current registry entry of a module (a TS object reference
dereference; the not-found branch is unreachable for names obtained from
the registry). -/
def readModule (name : String) : M Module := do
  let s ← getS
  match s.bbox.modules with
  | none => throwE "Modules not initialized"
  | some ms =>
    match findModuleByName ms name with
    | none => throwE "Internal: module not found"
    | some m => pure m

/-- Mutate `module.state` through the registry reference. -/
def modifyModuleState (name : String) (f : ModuleState → ModuleState) : M Unit :=
  modifyS fun s =>
    { s with bbox :=
        ⟨Option.map (updateFirst name (fun m => { m with state := f m.state })) s.bbox.modules⟩ }

/-- fileManager.saveState(module): record a durable write of the module
state current at the moment of the call. -/
def saveStateM (name : String) : M Unit := do
  let m ← readModule name
  emit (.saveState name m.state)

/-- One element of runInteractive: record the collaborator call, then fail
when the world says this runnable fails. -/
def failMsg : Runnable → String
  | .cmd s => "Command failed: " ++ s
  | .fn n => "Function failed: " ++ n

def runRunnable (W : World) (moduleName : String) (r : Runnable) : M Unit := do
  emit (.runInteractive moduleName r)
  if W.fails r then throwE (failMsg r) else pure ()

def runList (W : World) (moduleName : String) : List Runnable → M Unit
  | [] => pure ()
  | r :: rest => do
    runRunnable W moduleName r
    runList W moduleName rest

/-- Bbox.runInteractive: an array runs its elements in order, a single
runnable runs directly. -/
def runInteractive (W : World) (moduleName : String) : RunnableSpec → M Unit
  | .single r => runRunnable W moduleName r
  | .many rs => runList W moduleName rs

/-- Bbox.stageServiceState. -/
def stageServiceState (serviceName : String) (st : StagedServiceState) : M Unit :=
  modifyS fun s =>
    { s with ctx := { stagedStates := s.ctx.stagedStates ++ [.service serviceName st] } }

/-- Bbox.stageModuleState. -/
def stageModuleState (moduleName : String) (st : StagedModuleState) : M Unit :=
  modifyS fun s =>
    { s with ctx := { stagedStates := s.ctx.stagedStates ++ [.module moduleName st] } }

/-- Bbox.stageBuild: resets state.built to false, then stages built=true. -/
def stageBuild (moduleName : String) : M Unit := do
  modifyModuleState moduleName (fun st => { st with built := false })
  stageModuleState moduleName { built := some true, ranAllMigrations := none }

/-- Bbox.stageBuildIfNeeded: no-op when already built or no (truthy) build
action is declared. -/
def stageBuildIfNeeded (moduleName : String) : M Unit := do
  let m ← readModule moduleName
  let hasBuild := match m.spec.build with
    | none => false
    | some rs => rs.truthy
  if m.state.built || !hasBuild then pure ()
  else stageModuleState moduleName { built := some true, ranAllMigrations := none }

/-- Bbox.stageMigrationsIfNeeded. -/
def stageMigrationsIfNeeded (moduleName : String) : M Unit := do
  let m ← readModule moduleName
  if (getNotAppliedMigrations m).length == 0 then pure ()
  else stageModuleState moduleName { built := none, ranAllMigrations := some true }

/-- Bbox.stageStart: build and migration staging for the owning module,
then the Online service-state change. -/
def stageStart (moduleName serviceName : String) : M Unit := do
  stageBuildIfNeeded moduleName
  stageMigrationsIfNeeded moduleName
  stageServiceState serviceName { processStatus := some .Online }

/-- Dependency loop of Bbox.stageStartDependenciesIfNeeded.  The source
recursion has no cycle detection and diverges on cyclic declarations; the
fuel parameter makes it total, and every theorem supplies enough fuel for
the dependency graph at hand. -/
def stageStartDeps (fuel : Nat) (deps : List String) : M Unit :=
  match fuel, deps with
  | _, [] => pure ()
  | 0, _ :: _ => throwE "Dependency recursion limit reached"
  | Nat.succ fuel, dep :: rest => do
    let r ← getService dep
    (match r.2.spec.dependencies with
     | none => pure ()
     | some ds => stageStartDeps fuel ds)
    stageStart r.1.name r.2.name
    stageStartDeps fuel rest

/-- Bbox.stageStartDependenciesIfNeeded on an already fetched service. -/
def stageStartDependenciesIfNeeded (fuel : Nat) (sv : Service) : M Unit :=
  match sv.spec.dependencies with
  | none => pure ()
  | some deps => stageStartDeps fuel deps

/-- Bbox.runBuild: `!module.spec.build` is JS truthiness, so a missing or
falsy build action throws. -/
def runBuild (W : World) (moduleName : String) : M Unit := do
  let m ← readModule moduleName
  match m.spec.build with
  | none => throwE "Module has not build action specified"
  | some rs =>
    if rs.truthy then do
      runInteractive W moduleName rs
      modifyModuleState moduleName (fun st => { st with built := true })
      saveStateM moduleName
    else throwE "Module has not build action specified"

/-- The per-migration loop of Bbox.runMigrate: run the migration, append
its id to ranMigrations, persist; a failure propagates at once. -/
def migLoop (W : World) (moduleName : String)
    (migs : List (String × RunnableSpec)) : List String → M Unit
  | [] => pure ()
  | migId :: rest => do
    (match lookupAssoc migs migId with
     | none => throwE "Internal: migration not found"
     | some rs => runInteractive W moduleName rs)
    modifyModuleState moduleName
      (fun st => { st with ranMigrations := st.ranMigrations ++ [migId] })
    saveStateM moduleName
    migLoop W moduleName migs rest

/-- Bbox.runMigrate. -/
def runMigrate (W : World) (moduleName : String) : M Unit := do
  let m ← readModule moduleName
  match m.spec.migrations with
  | none => throwE "Module has migrations specified"
  | some migs =>
    let diff := getNotAppliedMigrations m
    if diff.length == 0 then pure ()
    else do
      migLoop W moduleName migs diff
      modifyModuleState moduleName (fun st => { st with ranAllMigrations := true })
      saveStateM moduleName

/-- One entry of the executeStaged loop. -/
def applyChange (W : World) : StagedChange → M Unit
  | .module name st => do
    let m ← readModule name
    (match st.built with
     | none => pure ()
     | some b => if b && !m.state.built then runBuild W name else pure ())
    (match st.ranAllMigrations with
     | none => pure ()
     | some _ => runMigrate W name)
  | .service serviceName st =>
    match st.processStatus with
    | none => pure ()
    | some .Online => emit (.startAndWait serviceName)
    | some .Offline => emit (.stopAndWait serviceName)
    | some .Unknown => throwE "Unhandled ServiceProcessStatus Unknown"

def applyList (W : World) : List StagedChange → M Unit
  | [] => pure ()
  | c :: rest => do
    applyChange W c
    applyList W rest

/-- Bbox.executeStaged: walks ctx.stagedStates in insertion order.  The
source never clears the array; applying a change stages nothing, so
iterating a snapshot coincides with the live JS iteration. -/
def executeStaged (W : World) : M Unit := do
  let s ← getS
  applyList W s.ctx.stagedStates

/-- Top-level Bbox.build. -/
def build (W : World) (name : String) : M Unit := do
  let m ← getModule name
  stageBuild m.name
  executeStaged W

/-- Top-level Bbox.start. -/
def start (W : World) (fuel : Nat) (serviceName : String) : M Unit := do
  let r ← getService serviceName
  stageStartDependenciesIfNeeded fuel r.2
  stageStart r.1.name r.2.name
  executeStaged W

/-- Top-level Bbox.stop. -/
def stop (W : World) (serviceName : String) : M Unit := do
  let r ← getService serviceName
  stageServiceState r.2.name { processStatus := some .Offline }
  executeStaged W

/-- Top-level Bbox.migrate. -/
def migrate (W : World) (name : String) : M Unit := do
  let m ← getModule name
  stageMigrationsIfNeeded m.name
  executeStaged W

/-- JS String.prototype.split with a one-character separator, on char
lists (kernel-computable, unlike String.splitOn). -/
def jsSplitAux (sep : Char) : List Char → List Char → List String
  | [], acc => [String.mk acc.reverse]
  | c :: rest, acc =>
    if c == sep then String.mk acc.reverse :: jsSplitAux sep rest []
    else jsSplitAux sep rest (c :: acc)

def jsSplit (sep : Char) (s : String) : List String := jsSplitAux sep s.data []

/-- The static value consulted by provideValue: present only when the
spec has a values map, the provider name is a key, and the value is JS
truthy (the source tests `serviceSpec.values && serviceSpec.values[p]`). -/
def staticValOf (vals : Option (List (String × JsValue))) (pName : String) : Option JsValue :=
  match vals with
  | none => none
  | some vs =>
    match lookupAssoc vs pName with
    | none => none
    | some v => if v.truthy then some v else none

/-- The provider runnable consulted by provideValue: present only when
declared and truthy (a non-empty command string). -/
def providerOf (provs : Option (List (String × String))) (pName : String) : Option String :=
  match provs with
  | none => none
  | some ps =>
    match lookupAssoc ps pName with
    | none => none
    | some p => if p == "" then none else some p

/-- Body of Bbox.provideValue before the wrapping catch. -/
def provideValueInner (W : World) (valueName : String) : M JsValue := do
  let parts := jsSplit '.' valueName
  let serviceName := parts.headD ""
  let providerName := (parts.drop 1).headD ""
  let r ← getService serviceName
  match staticValOf r.2.spec.values providerName with
  | some v => pure v
  | none =>
    match providerOf r.2.spec.valueProviders providerName with
    | none => throwE ("Value provider " ++ providerName ++ " not found")
    | some prov => do
      stageBuildIfNeeded r.1.name
      executeStaged W
      emit (.procRun r.1.name prov)
      pure (W.runOutput r.1.name prov)

/-- Bbox.provideValue (also the top-level value operation): any failure is
rethrown annotated with the requested identifier; state mutations made
before the throw persist. -/
def provideValue (W : World) (valueName : String) : M JsValue := fun s =>
  match provideValueInner W valueName s with
  | .ok v s' => .ok v s'
  | .err e s' => .err ("Could not get " ++ valueName ++ " value: " ++ e) s'

def boolText : Bool → String
  | true => "true"
  | false => "false"

def statusText : Option ServiceProcessStatus → String
  | some .Online => "Online"
  | some .Offline => "Offline"
  | some .Unknown => "Unknown"
  | none => "Unknown"

def runtimeText : Runtime → String
  | .Local => "Local"
  | .Docker => "Docker"

/-- One status line printed by Bbox.list for a service. -/
def listLine (W : World) (m : Module) (sv : Service) : String :=
  sv.name ++ " [" ++ m.name ++ "]: " ++ statusText (W.findServiceProcess sv.name) ++
    ", built: " ++ boolText m.state.built ++
    ", pending migrations: " ++ String.intercalate ", " (getNotAppliedMigrations m) ++
    ", runtimes: " ++ String.intercalate "," (m.availableRuntimes.map runtimeText)

def listServices (W : World) (m : Module) : List Service → M (List String)
  | [] => pure []
  | sv :: rest => do
    emit (.findProc sv.name)
    let lines ← listServices W m rest
    pure (listLine W m sv :: lines)

def listModules (W : World) : List Module → M (List String)
  | [] => pure []
  | m :: rest => do
    let lines ← listServices W m m.services
    let more ← listModules W rest
    pure (lines ++ more)

/-- Top-level Bbox.list: queries the process list for each service and
produces the printed status lines. -/
def list (W : World) : M (List String) := do
  let ms ← getAllModules
  listModules W ms

/-! Run lemmas for the monad primitives. -/

theorem bind_ok {α β : Type} {x : M α} {s s' : S} {a : α} (f : α → M β)
    (h : x s = .ok a s') : (x >>= f) s = f a s' := by
  show mBind x f s = f a s'
  unfold mBind
  rw [h]

theorem bind_err {α β : Type} {x : M α} {s s' : S} {e : String} (f : α → M β)
    (h : x s = .err e s') : (x >>= f) s = .err e s' := by
  show mBind x f s = .err e s'
  unfold mBind
  rw [h]

theorem pure_run {α : Type} (a : α) (s : S) : (pure a : M α) s = .ok a s := rfl

theorem getS_run (s : S) : getS s = .ok s s := rfl

theorem modifyS_run (f : S → S) (s : S) : modifyS f s = .ok () (f s) := rfl

theorem throwE_run {α : Type} (e : String) (s : S) : (throwE e : M α) s = .err e s := rfl

theorem emit_run (e : Effect) (s : S) :
    emit e s = .ok () { s with trace := s.trace ++ [e] } := rfl

theorem bind_ok' {α β : Type} {x : M α} {f : α → M β} {s s' : S} {a : α}
    {r : Res β} (h1 : x s = .ok a s') (h2 : f a s' = r) : (x >>= f) s = r := by
  rw [bind_ok f h1, h2]

/-- Whether `pat` occurs as a contiguous substring of the text, on char
lists (kernel-computable, unlike String.substrEq). -/
def startsWithB : List Char → List Char → Bool
  | [], _ => true
  | _ :: _, [] => false
  | a :: as, b :: bs => a == b && startsWithB as bs

def containsSubL (pat : List Char) : List Char → Bool
  | [] => pat.isEmpty
  | c :: rest => startsWithB pat (c :: rest) || containsSubL pat rest

/-- Whether `pat` occurs as a substring of `s`. -/
def containsSub (s pat : String) : Bool := containsSubL pat.data s.data

/-! Run characterizations of the registry lookups. -/

theorem getAllModules_run_some {s : S} {ms : List Module}
    (h : s.bbox.modules = some ms) : getAllModules s = .ok ms s := by
  unfold getAllModules
  rw [bind_ok _ (getS_run s), h]
  rfl

theorem getAllModules_run_none {s : S} (h : s.bbox.modules = none) :
    getAllModules s = .err "Modules not initialized" s := by
  unfold getAllModules
  rw [bind_ok _ (getS_run s), h]
  rfl

theorem getModule_run_ok {s : S} {ms : List Module} {name : String} {m : Module}
    (hs : s.bbox.modules = some ms) (h : findModuleByName ms name = some m) :
    getModule name s = .ok m s := by
  unfold getModule
  rw [bind_ok _ (getAllModules_run_some hs)]
  unfold getModuleCore
  rw [h]
  rfl

theorem getModule_run_notfound {s : S} {ms : List Module} {name : String}
    (hs : s.bbox.modules = some ms) (h : findModuleByName ms name = none) :
    getModule name s = .err (moduleNotFoundMsg name ms) s := by
  unfold getModule
  rw [bind_ok _ (getAllModules_run_some hs)]
  unfold getModuleCore
  rw [h]
  rfl

theorem getModule_run_uninit {s : S} {name : String} (h : s.bbox.modules = none) :
    getModule name s = .err "Modules not initialized" s := by
  unfold getModule
  rw [bind_err _ (getAllModules_run_none h)]

theorem getService_run_ok {s : S} {ms : List Module} {name : String}
    {r : Module × Service}
    (hs : s.bbox.modules = some ms) (h : findServiceRes ms name = some r) :
    getService name s = .ok r s := by
  unfold getService
  rw [bind_ok _ (getAllModules_run_some hs)]
  unfold getServiceCore
  rw [h]
  rfl

theorem getService_run_notfound {s : S} {ms : List Module} {name : String}
    (hs : s.bbox.modules = some ms) (h : findServiceRes ms name = none) :
    getService name s = .err (serviceNotFoundMsg name) s := by
  unfold getService
  rw [bind_ok _ (getAllModules_run_some hs)]
  unfold getServiceCore
  rw [h]
  rfl

theorem getService_run_uninit {s : S} {name : String} (h : s.bbox.modules = none) :
    getService name s = .err "Modules not initialized" s := by
  unfold getService
  rw [bind_err _ (getAllModules_run_none h)]

theorem readModule_run {s : S} {ms : List Module} {name : String} {m : Module}
    (hs : s.bbox.modules = some ms) (h : findModuleByName ms name = some m) :
    readModule name s = .ok m s := by
  unfold readModule
  rw [bind_ok _ (getS_run s)]
  simp only [hs, h]
  rfl

/-- A found module carries the looked-up name. -/
theorem findModuleByName_name {ms : List Module} {n : String} {m : Module}
    (h : findModuleByName ms n = some m) : m.name = n := by
  have := List.find?_some h
  simpa using this

/-- A found service carries the looked-up name, and its owning module is a
registry member. -/
theorem findServiceRes_name {ms : List Module} {n : String} {r : Module × Service} :
    findServiceRes ms n = some r → r.2.name = n := by
  induction ms with
  | nil => intro h; simp [findServiceRes] at h
  | cons m rest ih =>
    intro h
    unfold findServiceRes at h
    cases hf : m.services.find? (fun sv => sv.name == n) with
    | some sv =>
      rw [hf] at h
      cases h
      have := List.find?_some hf
      simpa using this
    | none =>
      rw [hf] at h
      exact ih h

/-- Declared migration ids of a module spec (keys of the migrations map). -/
def declaredMigrationIds (m : Module) : List String :=
  match m.spec.migrations with
  | none => []
  | some migs => migs.map (fun p => p.1)

theorem charListLe_total : ∀ as bs, charListLe as bs = true ∨ charListLe bs as = true
  | [], _ => Or.inl rfl
  | _ :: _, [] => Or.inr rfl
  | a :: as, b :: bs => by
    rcases Nat.lt_trichotomy a.val.toNat b.val.toNat with h | h | h
    · left; simp [charListLe, h]
    · rcases charListLe_total as bs with ih | ih
      · left; simp [charListLe, h, ih]
      · right; simp [charListLe, h.symm, ih]
    · right; simp [charListLe, h]

theorem charListLe_cons {a b : Char} {as bs : List Char} :
    charListLe (a :: as) (b :: bs) = true ↔
      (a.val.toNat < b.val.toNat ∨
        (a.val.toNat = b.val.toNat ∧ charListLe as bs = true)) := by
  simp only [charListLe]
  split
  · rename_i h
    simp [h]
  · split
    · rename_i h1 h2
      refine ⟨fun h => absurd h (by simp), ?_⟩
      rintro (h | ⟨h, _⟩) <;> omega
    · rename_i h1 h2
      have he : a.val.toNat = b.val.toNat := by omega
      simp [he, h1]

theorem charListLe_trans :
    ∀ as bs cs, charListLe as bs = true → charListLe bs cs = true →
      charListLe as cs = true
  | [], _, _, _, _ => rfl
  | _ :: _, [], _, h1, _ => by simp [charListLe] at h1
  | _ :: _, _ :: _, [], _, h2 => by simp [charListLe] at h2
  | a :: as, b :: bs, c :: cs, h1, h2 => by
    rw [charListLe_cons] at h1 h2 ⊢
    rcases h1 with h1 | ⟨h1e, h1r⟩ <;> rcases h2 with h2 | ⟨h2e, h2r⟩
    · exact Or.inl (by omega)
    · exact Or.inl (by omega)
    · exact Or.inl (by omega)
    · exact Or.inr ⟨by omega, charListLe_trans as bs cs h1r h2r⟩

instance : IsTotal String strLeP :=
  ⟨fun a b => charListLe_total a.data b.data⟩

instance : IsTrans String strLeP :=
  ⟨fun a b c => charListLe_trans a.data b.data c.data⟩

theorem mem_sortStrings {l : List String} {a : String} :
    a ∈ sortStrings l ↔ a ∈ l :=
  (List.perm_insertionSort _ l).mem_iff

theorem sorted_sortStrings (l : List String) :
    List.Sorted strLeP (sortStrings l) :=
  List.sorted_insertionSort _ l

theorem nodup_sortStrings {l : List String} (h : l.Nodup) :
    (sortStrings l).Nodup :=
  ((List.perm_insertionSort _ l).nodup_iff).mpr h

/-- C4: for every module, getNotAppliedMigrations returns a
lexicographically sorted sequence without duplicates, equal (as a set) to
the declared migration ids minus state.ranMigrations, and returns the
empty sequence when no migrations map is declared. -/
theorem C4_pending_migrations_sorted_diff (m : Module) :
    List.Sorted strLeP (getNotAppliedMigrations m) ∧
    (getNotAppliedMigrations m).Nodup ∧
    (∀ id, id ∈ getNotAppliedMigrations m ↔
      (id ∈ declaredMigrationIds m ∧ id ∉ m.state.ranMigrations)) ∧
    (m.spec.migrations = none → getNotAppliedMigrations m = []) := by
  unfold getNotAppliedMigrations declaredMigrationIds
  cases hm : m.spec.migrations with
  | none => simp
  | some migs =>
    refine ⟨(sorted_sortStrings _).filter _,
      (nodup_sortStrings (List.nodup_dedup _)).filter _, ?_, by simp⟩
    intro id
    simp [List.mem_filter, mem_sortStrings, List.mem_dedup]

/-- Concrete example module for the C4 witness: two declared migrations,
one already applied. -/
def exMigModule : Module where
  name := "m"
  spec :=
    { name := "m"
      build := none
      migrations := some [("0002-b", .single (.cmd "b")), ("0001-a", .single (.cmd "a"))] }
  state := { ranMigrations := ["0002-b"], ranAllMigrations := false, built := false }
  services := []
  availableRuntimes := [.Local]

theorem findModuleByName_eq_none {ms : List Module} {n : String}
    (h : ∀ m ∈ ms, m.name ≠ n) : findModuleByName ms n = none := by
  unfold findModuleByName
  rw [List.find?_eq_none]
  intro m hm
  simpa using h m hm

theorem findServiceRes_eq_none {ms : List Module} {n : String}
    (h : ∀ m ∈ ms, ∀ sv ∈ m.services, sv.name ≠ n) :
    findServiceRes ms n = none := by
  induction ms with
  | nil => rfl
  | cons m rest ih =>
    unfold findServiceRes
    have hf : m.services.find? (fun sv => sv.name == n) = none := by
      rw [List.find?_eq_none]
      intro sv hsv
      simpa using h m (by simp) sv hsv
    rw [hf]
    exact ih (fun m' hm' => h m' (by simp [hm']))

/-- A service with no dependencies, no providers and no static values. -/
def plainService (n : String) : Service where
  name := n
  spec := { name := n, dependencies := none, valueProviders := none, values := none, env := [] }
  state := { processStatus := .Unknown }

/-- Fresh module state: nothing built, nothing migrated. -/
def freshState : ModuleState where
  ranMigrations := []
  ranAllMigrations := false
  built := false

/-- Registry for the C6 examples: one module owning two services. -/
def exRegC6 : List Module :=
  [{ name := "mod1"
     spec := { name := "mod1", build := none, migrations := none }
     state := freshState
     services := [plainService "alpha", plainService "beta"]
     availableRuntimes := [.Local] }]

def exSC6 : S := { bbox := ⟨some exRegC6⟩, ctx := ⟨[]⟩, trace := [] }

/-- C6 counterexample: the getService error for a missing name mentions
none of the known service names (and not the module name either), unlike
what the claim states; only getModule lists known names. -/
theorem C6_counterexample :
    getService "missing" exSC6 = .err (serviceNotFoundMsg "missing") exSC6 ∧
    containsSub (serviceNotFoundMsg "missing") "alpha" = false ∧
    containsSub (serviceNotFoundMsg "missing") "beta" = false ∧
    containsSub (serviceNotFoundMsg "missing") "mod1" = false ∧
    containsSub (moduleNotFoundMsg "missing" exRegC6) "mod1" = true :=
  ⟨rfl, by decide, by decide, by decide, by decide⟩

/-- C6 amended: for a name with no matching module, getModule fails with
the message listing all discovered module names; for a name with no
matching service, getService fails with a fixed message that carries only
the requested name and lists no known names. -/
theorem C6_notfound_messages (s : S) (ms : List Module) (name : String)
    (hs : s.bbox.modules = some ms)
    (hm : ∀ m ∈ ms, m.name ≠ name)
    (hsv : ∀ m ∈ ms, ∀ sv ∈ m.services, sv.name ≠ name) :
    getModule name s = .err (moduleNotFoundMsg name ms) s ∧
    getService name s = .err (serviceNotFoundMsg name) s :=
  ⟨getModule_run_notfound hs (findModuleByName_eq_none hm),
   getService_run_notfound hs (findServiceRes_eq_none hsv)⟩

/-- Witness for C6 at the concrete registry. -/
theorem C6_notfound_messages_witness :
    getModule "missing" exSC6 = .err (moduleNotFoundMsg "missing" exRegC6) exSC6 ∧
    getService "missing" exSC6 = .err (serviceNotFoundMsg "missing") exSC6 :=
  C6_notfound_messages exSC6 exRegC6 "missing" rfl (by decide) (by decide)

/-- Witness for C4 at exMigModule. -/
theorem C4_pending_migrations_sorted_diff_witness :
    List.Sorted strLeP (getNotAppliedMigrations exMigModule) ∧
    (getNotAppliedMigrations exMigModule).Nodup ∧
    (∀ id, id ∈ getNotAppliedMigrations exMigModule ↔
      (id ∈ declaredMigrationIds exMigModule ∧ id ∉ exMigModule.state.ranMigrations)) ∧
    (exMigModule.spec.migrations = none → getNotAppliedMigrations exMigModule = []) :=
  C4_pending_migrations_sorted_diff exMigModule

/-- A benign world: no runnable fails. -/
def exW : World where
  fails := fun _ => false
  runOutput := fun _ _ => .vNull
  findServiceProcess := fun _ => none

/-- An uninitialized Bbox state (init never ran). -/
def exSUninit : S := { bbox := ⟨none⟩, ctx := ⟨[]⟩, trace := [] }

/-- C9: with an uninitialized module registry, every lookup-based public
operation fails with the modules-not-initialized error, leaving the state
(queue, registry, trace) untouched — no staged change is created and no
effect runs. -/
theorem C9_ops_require_init (W : World) (fuel : Nat) (n v : String) (s : S)
    (h : s.bbox.modules = none) :
    start W fuel n s = .err "Modules not initialized" s ∧
    stop W n s = .err "Modules not initialized" s ∧
    build W n s = .err "Modules not initialized" s ∧
    migrate W n s = .err "Modules not initialized" s ∧
    provideValue W v s = .err ("Could not get " ++ v ++ " value: " ++ "Modules not initialized") s ∧
    list W s = .err "Modules not initialized" s := by
  have hInner : provideValueInner W v s = .err "Modules not initialized" s := by
    simp only [provideValueInner]
    rw [bind_err _ (getService_run_uninit h)]
  refine ⟨?_, ?_, ?_, ?_, ?_, ?_⟩
  · unfold start
    rw [bind_err _ (getService_run_uninit h)]
  · unfold stop
    rw [bind_err _ (getService_run_uninit h)]
  · unfold build
    rw [bind_err _ (getModule_run_uninit h)]
  · unfold migrate
    rw [bind_err _ (getModule_run_uninit h)]
  · unfold provideValue
    rw [hInner]
  · unfold list
    rw [bind_err _ (getAllModules_run_none h)]

/-- Witness for C9 on a concrete uninitialized state. -/
theorem C9_ops_require_init_witness :
    start exW 3 "svc" exSUninit = .err "Modules not initialized" exSUninit ∧
    stop exW "svc" exSUninit = .err "Modules not initialized" exSUninit ∧
    build exW "svc" exSUninit = .err "Modules not initialized" exSUninit ∧
    migrate exW "svc" exSUninit = .err "Modules not initialized" exSUninit ∧
    provideValue exW "svc.port" exSUninit =
      .err ("Could not get " ++ "svc.port" ++ " value: " ++ "Modules not initialized") exSUninit ∧
    list exW exSUninit = .err "Modules not initialized" exSUninit :=
  C9_ops_require_init exW 3 "svc" "svc.port" exSUninit rfl

/-- C8: when a module has no pending migrations, the top-level migrate
operation on a fresh execution context is a complete no-op: it succeeds
and returns the state unchanged (no runnable executed, nothing persisted,
ranMigrations and ranAllMigrations untouched, nothing staged). -/
theorem C8_migrate_noop (W : World) (s : S) (ms : List Module)
    (name : String) (m : Module)
    (hs : s.bbox.modules = some ms)
    (hm : findModuleByName ms name = some m)
    (hpend : getNotAppliedMigrations m = [])
    (hctx : s.ctx.stagedStates = []) :
    migrate W name s = .ok () s := by
  have hstage : stageMigrationsIfNeeded m.name s = .ok () s := by
    unfold stageMigrationsIfNeeded
    rw [findModuleByName_name hm]
    refine bind_ok' (readModule_run hs hm) ?_
    simp only [hpend]
    rfl
  have hexec : executeStaged W s = .ok () s := by
    unfold executeStaged
    refine bind_ok' (getS_run s) ?_
    simp only [hctx]
    rfl
  unfold migrate
  exact bind_ok' (getModule_run_ok hs hm) (bind_ok' hstage hexec)

/-- Registry for the C8 witness: one module whose only migration already
ran. -/
def exRegC8 : List Module :=
  [{ name := "mod1"
     spec :=
       { name := "mod1"
         build := none
         migrations := some [("0001-a", .single (.cmd "mig-a"))] }
     state := { ranMigrations := ["0001-a"], ranAllMigrations := true, built := false }
     services := []
     availableRuntimes := [.Local] }]

def exSC8 : S := { bbox := ⟨some exRegC8⟩, ctx := ⟨[]⟩, trace := [] }

/-- Witness for C8 on the concrete registry. -/
theorem C8_migrate_noop_witness : migrate exW "mod1" exSC8 = .ok () exSC8 :=
  C8_migrate_noop exW exSC8 exRegC8 "mod1"
    (exRegC8.headD (exMigModule)) rfl rfl (by decide) rfl

/-! The reconciliation phase never touches the staged queue: applying
changes mutates only the registry and the effect trace.  `KeepCtx f`
states that `f` leaves `ctx` (the staged queue) exactly as it was, on
both the ok and the error path. -/

def KeepCtx {α : Type} (f : M α) : Prop := ∀ s, ((f s).state).ctx = s.ctx

theorem keepCtx_pure {α : Type} (a : α) : KeepCtx (pure a : M α) := fun _ => rfl

theorem keepCtx_throwE {α : Type} (e : String) : KeepCtx (throwE e : M α) := fun _ => rfl

theorem keepCtx_getS : KeepCtx getS := fun _ => rfl

theorem keepCtx_emit (e : Effect) : KeepCtx (emit e) := fun _ => rfl

theorem keepCtx_modifyModuleState (n : String) (f : ModuleState → ModuleState) :
    KeepCtx (modifyModuleState n f) := fun _ => rfl

theorem keepCtx_bind {α β : Type} {x : M α} {f : α → M β}
    (hx : KeepCtx x) (hf : ∀ a, KeepCtx (f a)) : KeepCtx (x >>= f) := by
  intro s
  show ((mBind x f s).state).ctx = s.ctx
  unfold mBind
  cases hx0 : x s with
  | ok a s' =>
    have h1 := hx s
    rw [hx0] at h1
    rw [show ((Res.ok a s').state) = s' from rfl] at h1
    rw [hf a s']
    exact h1
  | err e s' =>
    have h1 := hx s
    rw [hx0] at h1
    exact h1

theorem keepCtx_ite {α : Type} {c : Prop} [Decidable c] {x y : M α}
    (hx : KeepCtx x) (hy : KeepCtx y) : KeepCtx (ite c x y) := by
  by_cases h : c
  · rw [if_pos h]; exact hx
  · rw [if_neg h]; exact hy

theorem keepCtx_readModule (n : String) : KeepCtx (readModule n) := by
  unfold readModule
  refine keepCtx_bind keepCtx_getS ?_
  intro a
  cases h : a.bbox.modules with
  | none => simp only [h]; exact keepCtx_throwE _
  | some ms =>
    simp only [h]
    cases h2 : findModuleByName ms n with
    | none => simp only [h2]; exact keepCtx_throwE _
    | some m => simp only [h2]; exact keepCtx_pure _

theorem keepCtx_saveStateM (n : String) : KeepCtx (saveStateM n) := by
  unfold saveStateM
  exact keepCtx_bind (keepCtx_readModule n) (fun m => keepCtx_emit _)

theorem keepCtx_runRunnable (W : World) (n : String) (r : Runnable) :
    KeepCtx (runRunnable W n r) := by
  unfold runRunnable
  exact keepCtx_bind (keepCtx_emit _)
    (fun _ => keepCtx_ite (keepCtx_throwE _) (keepCtx_pure _))

theorem keepCtx_runList (W : World) (n : String) :
    ∀ rs : List Runnable, KeepCtx (runList W n rs)
  | [] => keepCtx_pure ()
  | r :: rest =>
    keepCtx_bind (keepCtx_runRunnable W n r) (fun _ => keepCtx_runList W n rest)

theorem keepCtx_runInteractive (W : World) (n : String) :
    ∀ rs : RunnableSpec, KeepCtx (runInteractive W n rs)
  | .single r => keepCtx_runRunnable W n r
  | .many rs => keepCtx_runList W n rs

theorem keepCtx_runBuild (W : World) (n : String) : KeepCtx (runBuild W n) := by
  unfold runBuild
  refine keepCtx_bind (keepCtx_readModule n) ?_
  intro m
  cases hb : m.spec.build with
  | none => simp only [hb]; exact keepCtx_throwE _
  | some rs =>
    simp only [hb]
    refine keepCtx_ite ?_ (keepCtx_throwE _)
    exact keepCtx_bind (keepCtx_runInteractive W n rs)
      (fun _ => keepCtx_bind (keepCtx_modifyModuleState n _)
        (fun _ => keepCtx_saveStateM n))

theorem keepCtx_migLoop (W : World) (n : String)
    (migs : List (String × RunnableSpec)) :
    ∀ ids : List String, KeepCtx (migLoop W n migs ids)
  | [] => keepCtx_pure ()
  | migId :: rest => by
    show KeepCtx (_ >>= _)
    refine keepCtx_bind ?_ ?_
    · cases hl : lookupAssoc migs migId with
      | none => simp only [hl]; exact keepCtx_throwE _
      | some rs => simp only [hl]; exact keepCtx_runInteractive W n rs
    · intro _
      exact keepCtx_bind (keepCtx_modifyModuleState n _)
        (fun _ => keepCtx_bind (keepCtx_saveStateM n)
          (fun _ => keepCtx_migLoop W n migs rest))

theorem keepCtx_runMigrate (W : World) (n : String) : KeepCtx (runMigrate W n) := by
  unfold runMigrate
  refine keepCtx_bind (keepCtx_readModule n) ?_
  intro m
  cases hb : m.spec.migrations with
  | none => simp only [hb]; exact keepCtx_throwE _
  | some migs =>
    simp only [hb]
    refine keepCtx_ite (keepCtx_pure _) ?_
    exact keepCtx_bind (keepCtx_migLoop W n migs _)
      (fun _ => keepCtx_bind (keepCtx_modifyModuleState n _)
        (fun _ => keepCtx_saveStateM n))

theorem keepCtx_applyChange (W : World) : ∀ c : StagedChange, KeepCtx (applyChange W c)
  | .module name st => by
    unfold applyChange
    refine keepCtx_bind (keepCtx_readModule name) ?_
    intro m
    refine keepCtx_bind ?_ ?_
    · cases hb : st.built with
      | none => simp only [hb]; exact keepCtx_pure _
      | some b =>
        simp only [hb]
        exact keepCtx_ite (keepCtx_runBuild W name) (keepCtx_pure _)
    · intro _
      cases hr : st.ranAllMigrations with
      | none => simp only [hr]; exact keepCtx_pure _
      | some _ => simp only [hr]; exact keepCtx_runMigrate W name
  | .service serviceName st => by
    unfold applyChange
    cases hp : st.processStatus with
    | none => simp only [hp]; exact keepCtx_pure _
    | some ps =>
      cases ps with
      | Unknown => simp only [hp]; exact keepCtx_throwE _
      | Online => simp only [hp]; exact keepCtx_emit _
      | Offline => simp only [hp]; exact keepCtx_emit _

theorem keepCtx_applyList (W : World) : ∀ q : List StagedChange, KeepCtx (applyList W q)
  | [] => keepCtx_pure ()
  | c :: rest =>
    keepCtx_bind (keepCtx_applyChange W c) (fun _ => keepCtx_applyList W rest)

/-- executeStaged never mutates the staged queue: in particular it does
NOT drain it. -/
theorem keepCtx_executeStaged (W : World) : KeepCtx (executeStaged W) := by
  unfold executeStaged
  exact keepCtx_bind keepCtx_getS (fun a => keepCtx_applyList W a.ctx.stagedStates)

/-- The process effect applied for a staged change (service status
changes dispatch to the process manager; module changes run no process
status effect). -/
def svcEffect : StagedChange → List Effect
  | .service n st =>
    match st.processStatus with
    | some .Online => [.startAndWait n]
    | some .Offline => [.stopAndWait n]
    | _ => []
  | .module _ _ => []

def svcEffects : List StagedChange → List Effect
  | [] => []
  | c :: rest => svcEffect c ++ svcEffects rest

/-- A staged change that is a service-status change with a handled status. -/
def benignService : StagedChange → Prop
  | .service _ st => st.processStatus ≠ some .Unknown
  | .module _ _ => False

instance (c : StagedChange) : Decidable (benignService c) :=
  match c with
  | .module _ _ => isFalse (fun h => h)
  | .service _ st => inferInstanceAs (Decidable (st.processStatus ≠ some .Unknown))

theorem applyList_services (W : World) :
    ∀ (q : List StagedChange) (s : S), (∀ c ∈ q, benignService c) →
      applyList W q s = .ok () { s with trace := s.trace ++ svcEffects q }
  | [], s, _ => by
    show Res.ok () s = _
    simp [svcEffects]
  | c :: rest, s, h => by
    have hc := h c (by simp)
    have hrest : ∀ c' ∈ rest, benignService c' := fun c' hc' => h c' (by simp [hc'])
    show (applyChange W c >>= fun _ => applyList W rest) s = _
    cases c with
    | module name st => exact absurd hc (by simp [benignService])
    | service n st =>
      have hstep : applyChange W (.service n st) s =
          .ok () { s with trace := s.trace ++ svcEffect (.service n st) } := by
        unfold applyChange
        cases hp : st.processStatus with
        | none => simp only [hp, svcEffect]; simp [pure_run]
        | some ps =>
          cases ps with
          | Unknown => exact absurd hp hc
          | Online => simp only [hp, svcEffect]; rfl
          | Offline => simp only [hp, svcEffect]; rfl
      refine bind_ok' hstep ?_
      rw [applyList_services W rest _ hrest]
      simp [svcEffects, List.append_assoc]

/-- C5 counterexample: after a top-level stop (whose staged Offline change
was already applied once), the staged queue still holds the entry and a
second executeStaged call applies it again — the stop effect is emitted a
second time, so executeStaged neither drains the queue nor is a no-op on
re-run. -/
theorem C5_counterexample :
    (stop exW "alpha" exSC6).state.ctx.stagedStates =
      [.service "alpha" { processStatus := some .Offline }] ∧
    (stop exW "alpha" exSC6).state.trace = [.stopAndWait "alpha"] ∧
    (executeStaged exW ((stop exW "alpha" exSC6).state)).state.trace =
      [.stopAndWait "alpha", .stopAndWait "alpha"] :=
  ⟨rfl, rfl, rfl⟩

/-- C5 amended: executeStaged consumes the queue in FIFO insertion order
but never drains it; the context keeps all staged entries, and a second
executeStaged call on the same context re-applies every staged change (for
service-status entries the process-manager effect is emitted again). -/
theorem C5_fifo_not_drained (W : World) (s : S)
    (hq : ∀ c ∈ s.ctx.stagedStates, benignService c) :
    ((executeStaged W s).state).ctx = s.ctx ∧
    executeStaged W s =
      .ok () { s with trace := s.trace ++ svcEffects s.ctx.stagedStates } ∧
    executeStaged W ((executeStaged W s).state) =
      .ok () { s with trace :=
        (s.trace ++ svcEffects s.ctx.stagedStates) ++ svcEffects s.ctx.stagedStates } := by
  have h1 : executeStaged W s =
      .ok () { s with trace := s.trace ++ svcEffects s.ctx.stagedStates } := by
    unfold executeStaged
    exact bind_ok' (getS_run s) (applyList_services W s.ctx.stagedStates s hq)
  refine ⟨keepCtx_executeStaged W s, h1, ?_⟩
  rw [h1]
  show executeStaged W _ = _
  unfold executeStaged
  exact bind_ok' (getS_run _) (applyList_services W s.ctx.stagedStates _ hq)

/-- Witness for the amended C5 on a concrete single-entry queue. -/
def exSC5 : S :=
  { bbox := ⟨some exRegC6⟩
    ctx := ⟨[.service "alpha" { processStatus := some .Offline }]⟩
    trace := [] }

theorem C5_fifo_not_drained_witness :
    ((executeStaged exW exSC5).state).ctx = exSC5.ctx ∧
    executeStaged exW exSC5 =
      .ok () { exSC5 with trace := exSC5.trace ++ svcEffects exSC5.ctx.stagedStates } ∧
    executeStaged exW ((executeStaged exW exSC5).state) =
      .ok () { exSC5 with trace := (exSC5.trace ++ svcEffects exSC5.ctx.stagedStates) ++ svcEffects exSC5.ctx.stagedStates } :=
  C5_fifo_not_drained exW exSC5 (by decide)

/-- C7 amended: for an identifier serviceName.providerName, a TRUTHY
static value under the provider name is returned directly with the state
untouched (no build, no provider runnable, nothing staged, no effect);
when neither a truthy static value nor a truthy provider runnable exists,
resolution fails with the value-provider-not-found error wrapped with the
original identifier, again leaving the state untouched. -/
theorem C7_value_resolution (W : World) (s : S) (ms : List Module)
    (valueName sName pName : String) (r : Module × Service) (v : JsValue)
    (hs : s.bbox.modules = some ms)
    (hsplit : jsSplit '.' valueName = [sName, pName])
    (hsvc : findServiceRes ms sName = some r) :
    (staticValOf r.2.spec.values pName = some v →
      provideValue W valueName s = .ok v s) ∧
    (staticValOf r.2.spec.values pName = none →
      providerOf r.2.spec.valueProviders pName = none →
      provideValue W valueName s =
        .err ("Could not get " ++ valueName ++ " value: " ++
          ("Value provider " ++ pName ++ " not found")) s) := by
  constructor
  · intro hval
    have hi : provideValueInner W valueName s = .ok v s := by
      simp only [provideValueInner, hsplit]
      refine bind_ok' (@getService_run_ok s ms _ r hs hsvc) ?_
      simp only [List.drop, List.headD, hval]
      rfl
    unfold provideValue
    rw [hi]
  · intro hval hprov
    have hi : provideValueInner W valueName s =
        .err ("Value provider " ++ pName ++ " not found") s := by
      simp only [provideValueInner, hsplit]
      refine bind_ok' (@getService_run_ok s ms _ r hs hsvc) ?_
      simp only [List.drop, List.headD, hval, hprov]
      rfl
    unfold provideValue
    rw [hi]

/-- Service for the C7 examples: a falsy static value (the empty string)
declared under "port", and no value providers. -/
def exWebService : Service where
  name := "web"
  spec :=
    { name := "web"
      dependencies := none
      valueProviders := none
      values := some [("port", .vStr "")]
      env := [] }
  state := { processStatus := .Unknown }

def exRegC7 : List Module :=
  [{ name := "modv"
     spec := { name := "modv", build := none, migrations := none }
     state := freshState
     services := [exWebService]
     availableRuntimes := [.Local] }]

def exSC7 : S := { bbox := ⟨some exRegC7⟩, ctx := ⟨[]⟩, trace := [] }

/-- C7 counterexample: the service spec declares a static value under
"port" (the empty string, which is JS-falsy), yet provideValue does not
return it — the `values[p]` truthiness test skips it and resolution falls
through to the provider-not-found error. -/
theorem C7_counterexample :
    exWebService.spec.values = some [("port", JsValue.vStr "")] ∧
    lookupAssoc [("port", JsValue.vStr "")] "port" = some (JsValue.vStr "") ∧
    provideValue exW "web.port" exSC7 =
      .err "Could not get web.port value: Value provider port not found" exSC7 :=
  ⟨rfl, rfl, rfl⟩

/-- Service carrying a truthy static value for the C7 witness. -/
def exWebService2 : Service where
  name := "web2"
  spec :=
    { name := "web2"
      dependencies := none
      valueProviders := none
      values := some [("port", .vNum 8080)]
      env := [] }
  state := { processStatus := .Unknown }

def exRegC7b : List Module :=
  [{ name := "modw"
     spec := { name := "modw", build := none, migrations := none }
     state := freshState
     services := [exWebService2]
     availableRuntimes := [.Local] }]

def exSC7b : S := { bbox := ⟨some exRegC7b⟩, ctx := ⟨[]⟩, trace := [] }

/-- Witness for the amended C7 at a truthy static value. -/
theorem C7_value_resolution_witness :
    (staticValOf exWebService2.spec.values "port" = some (JsValue.vNum 8080) →
      provideValue exW "web2.port" exSC7b = .ok (JsValue.vNum 8080) exSC7b) ∧
    (staticValOf exWebService2.spec.values "port" = none →
      providerOf exWebService2.spec.valueProviders "port" = none →
      provideValue exW "web2.port" exSC7b =
        .err ("Could not get " ++ "web2.port" ++ " value: " ++
          ("Value provider " ++ "port" ++ " not found")) exSC7b) :=
  C7_value_resolution exW exSC7b exRegC7b "web2.port" "web2" "port"
    (exRegC7b.headD exMigModule, exWebService2) (JsValue.vNum 8080)
    rfl (by decide) rfl

/-! Run characterizations of runnable execution, state mutation and
persistence, used for the build and migration claims. -/

theorem runRunnable_run_ok {W : World} {n : String} {r : Runnable} (s : S)
    (h : W.fails r = false) :
    runRunnable W n r s = .ok () { s with trace := s.trace ++ [.runInteractive n r] } := by
  unfold runRunnable
  refine bind_ok' (emit_run _ s) ?_
  simp [h]
  rfl

theorem runRunnable_run_err {W : World} {n : String} {r : Runnable} (s : S)
    (h : W.fails r = true) :
    runRunnable W n r s =
      .err (failMsg r) { s with trace := s.trace ++ [.runInteractive n r] } := by
  unfold runRunnable
  refine bind_ok' (emit_run _ s) ?_
  simp [h]
  rfl

theorem runList_run_ok {W : World} {n : String} :
    ∀ (rs : List Runnable) (s : S), (∀ r ∈ rs, W.fails r = false) →
      runList W n rs s =
        .ok () { s with trace := s.trace ++ rs.map (.runInteractive n) }
  | [], s, _ => by
    show Res.ok () s = _
    simp
  | r :: rest, s, h => by
    show (runRunnable W n r >>= fun _ => runList W n rest) s = _
    refine bind_ok' (runRunnable_run_ok s (h r (by simp))) ?_
    rw [runList_run_ok rest _ (fun r' hr' => h r' (by simp [hr']))]
    simp

theorem runInteractive_run_ok {W : World} {n : String} {rs : RunnableSpec} (s : S)
    (h : ∀ r ∈ runnablesOf rs, W.fails r = false) :
    runInteractive W n rs s =
      .ok () { s with trace := s.trace ++ (runnablesOf rs).map (.runInteractive n) } := by
  cases rs with
  | single r =>
    show runRunnable W n r s = _
    rw [runRunnable_run_ok s (h r (by simp [runnablesOf]))]
    rfl
  | many l =>
    show runList W n l s = _
    exact runList_run_ok l s (fun r hr => h r (by simpa [runnablesOf] using hr))

/-- First failing runnable of a sequence, under a world. -/
def firstFail (W : World) : List Runnable → Option Runnable
  | [] => none
  | r :: rest => if W.fails r then some r else firstFail W rest

/-- The runnables attempted before (and including) the first failure. -/
def attemptRuns (W : World) : List Runnable → List Runnable
  | [] => []
  | r :: rest => if W.fails r then [r] else r :: attemptRuns W rest

theorem runList_run_err {W : World} {n : String} :
    ∀ (rs : List Runnable) (s : S) (rf : Runnable), firstFail W rs = some rf →
      runList W n rs s =
        .err (failMsg rf)
          { s with trace := s.trace ++ (attemptRuns W rs).map (.runInteractive n) }
  | [], _, _, h => by simp [firstFail] at h
  | r :: rest, s, rf, h => by
    show (runRunnable W n r >>= fun _ => runList W n rest) s = _
    cases hW : W.fails r with
    | true =>
      rw [bind_err _ (runRunnable_run_err s hW)]
      unfold firstFail at h
      rw [if_pos hW] at h
      cases h
      simp [attemptRuns, hW]
    | false =>
      refine bind_ok' (runRunnable_run_ok s hW) ?_
      unfold firstFail at h
      rw [if_neg (by simp [hW])] at h
      rw [runList_run_err rest _ rf h]
      simp [attemptRuns, hW]

theorem runInteractive_run_err {W : World} {n : String} {rs : RunnableSpec} (s : S)
    {rf : Runnable} (h : firstFail W (runnablesOf rs) = some rf) :
    runInteractive W n rs s =
      .err (failMsg rf)
        { s with trace :=
            s.trace ++ (attemptRuns W (runnablesOf rs)).map (.runInteractive n) } := by
  cases rs with
  | single r =>
    show runRunnable W n r s = _
    unfold runnablesOf firstFail at h
    cases hW : W.fails r with
    | true =>
      rw [if_pos hW] at h
      simp [firstFail] at h
      cases h
      rw [runRunnable_run_err s hW]
      simp [runnablesOf, attemptRuns, hW]
    | false =>
      rw [if_neg (by simp [hW])] at h
      simp [firstFail] at h
  | many l =>
    show runList W n l s = _
    exact runList_run_err l s rf h

/-- In-place module mutation as seen by the registry. -/
def setBuilt (b : Bool) : Module → Module :=
  fun m => { m with state := { m.state with built := b } }

theorem setBuilt_name (b : Bool) (m : Module) : (setBuilt b m).name = m.name := rfl

theorem modifyModuleState_run (n : String) (f : ModuleState → ModuleState) (s : S) :
    modifyModuleState n f s =
      .ok () { s with bbox :=
        ⟨Option.map (updateFirst n (fun m => { m with state := f m.state })) s.bbox.modules⟩ } := rfl

theorem findModuleByName_updateFirst_self {ms : List Module} {n : String} {m : Module}
    (f : Module → Module) (hf : ∀ m', (f m').name = m'.name)
    (h : findModuleByName ms n = some m) :
    findModuleByName (updateFirst n f ms) n = some (f m) := by
  induction ms with
  | nil => simp [findModuleByName] at h
  | cons m0 rest ih =>
    unfold findModuleByName at h
    unfold updateFirst
    by_cases h0 : (m0.name == n) = true
    · rw [if_pos h0]
      simp only [List.find?, h0] at h
      cases h
      simp only [findModuleByName, List.find?, hf, h0]
    · rw [if_neg h0]
      have hb : (m0.name == n) = false := by simpa using h0
      simp only [List.find?, hb] at h
      simp only [findModuleByName, List.find?, hb]
      exact ih h

theorem saveStateM_run {s : S} {ms : List Module} {n : String} {m : Module}
    (hs : s.bbox.modules = some ms) (hm : findModuleByName ms n = some m) :
    saveStateM n s = .ok () { s with trace := s.trace ++ [.saveState n m.state] } := by
  unfold saveStateM
  exact bind_ok' (readModule_run hs hm) (emit_run _ s)

theorem runBuild_run_ok {W : World} {n : String} {s : S} {ms : List Module}
    {m : Module} {rs : RunnableSpec}
    (hs : s.bbox.modules = some ms) (hm : findModuleByName ms n = some m)
    (hb : m.spec.build = some rs) (htr : rs.truthy = true)
    (hW : ∀ r ∈ runnablesOf rs, W.fails r = false) :
    runBuild W n s = .ok ()
      { bbox := ⟨some (updateFirst n (setBuilt true) ms)⟩
        ctx := s.ctx
        trace := (s.trace ++ (runnablesOf rs).map (.runInteractive n)) ++
          [.saveState n { m.state with built := true }] } := by
  unfold runBuild
  refine bind_ok' (readModule_run hs hm) ?_
  simp only [hb, htr, if_pos]
  refine bind_ok' (runInteractive_run_ok s hW) ?_
  refine bind_ok' (modifyModuleState_run n _ _) ?_
  refine (@saveStateM_run _ (updateFirst n (setBuilt true) ms) n (setBuilt true m)
    ?_ (findModuleByName_updateFirst_self _ (setBuilt_name true) hm)).trans ?_
  · simp [hs]
    rfl
  · simp [hs]
    exact ⟨rfl, rfl⟩

/-- The staged change pushed by stageBuild / stageBuildIfNeeded. -/
def eBuild (n : String) : StagedChange :=
  .module n { built := some true, ranAllMigrations := none }

theorem stageBuild_run (n : String) (s : S) :
    stageBuild n s = .ok ()
      { bbox := ⟨Option.map (updateFirst n (setBuilt false)) s.bbox.modules⟩
        ctx := ⟨s.ctx.stagedStates ++ [eBuild n]⟩
        trace := s.trace } := by
  unfold stageBuild
  refine bind_ok' (modifyModuleState_run n _ s) ?_
  rfl

theorem applyChange_eBuild_run {W : World} {n : String} {s : S} {ms : List Module}
    {m : Module} {rs : RunnableSpec}
    (hs : s.bbox.modules = some ms) (hm : findModuleByName ms n = some m)
    (hbuilt : m.state.built = false)
    (hb : m.spec.build = some rs) (htr : rs.truthy = true)
    (hW : ∀ r ∈ runnablesOf rs, W.fails r = false) :
    applyChange W (eBuild n) s = .ok ()
      { bbox := ⟨some (updateFirst n (setBuilt true) ms)⟩
        ctx := s.ctx
        trace := (s.trace ++ (runnablesOf rs).map (.runInteractive n)) ++
          [.saveState n { m.state with built := true }] } := by
  show (readModule n >>= fun m' =>
    ((if true && !m'.state.built then runBuild W n else pure ()) >>= fun _ =>
      pure ())) s = _
  refine bind_ok' (readModule_run hs hm) ?_
  show ((if true && !m.state.built then runBuild W n else pure ()) >>= fun _ => pure ()) s = _
  rw [hbuilt]
  show ((runBuild W n) >>= fun _ => pure ()) s = _
  refine bind_ok' (runBuild_run_ok hs hm hb htr hW) ?_
  rfl

theorem applyChange_eBuild_skip {W : World} {n : String} {s : S} {ms : List Module}
    {m : Module}
    (hs : s.bbox.modules = some ms) (hm : findModuleByName ms n = some m)
    (hbuilt : m.state.built = true) :
    applyChange W (eBuild n) s = .ok () s := by
  show (readModule n >>= fun m' =>
    ((if true && !m'.state.built then runBuild W n else pure ()) >>= fun _ =>
      pure ())) s = _
  refine bind_ok' (readModule_run hs hm) ?_
  show ((if true && !m.state.built then runBuild W n else pure ()) >>= fun _ => pure ()) s = _
  rw [hbuilt]
  rfl

theorem applyList_eBuild_skip {W : World} {n : String} :
    ∀ (k : Nat) {s : S} {ms : List Module} {m : Module},
      s.bbox.modules = some ms → findModuleByName ms n = some m →
      m.state.built = true →
      applyList W (List.replicate k (eBuild n)) s = .ok () s
  | 0, _, _, _, _, _, _ => rfl
  | Nat.succ k, s, ms, m, hs, hm, hb => by
    show (applyChange W (eBuild n) >>= fun _ => applyList W (List.replicate k (eBuild n))) s = _
    exact bind_ok' (applyChange_eBuild_skip hs hm hb) (applyList_eBuild_skip k hs hm hb)

/-- Full run of the top-level build operation: works from any queue that
consists of earlier build stagings of the same module (k = 0 is a fresh
context, k = 1 a second consecutive call, and so on).  The operation
always re-executes the build runnable: stageBuild reset the built flag
first. -/
theorem build_run {W : World} {s : S} {ms : List Module} {name : String}
    {m : Module} {rs : RunnableSpec} (k : Nat)
    (hs : s.bbox.modules = some ms)
    (hm : findModuleByName ms name = some m)
    (hb : m.spec.build = some rs) (htr : rs.truthy = true)
    (hW : ∀ r ∈ runnablesOf rs, W.fails r = false)
    (hq : s.ctx.stagedStates = List.replicate k (eBuild name)) :
    build W name s = .ok ()
      { bbox := ⟨some (updateFirst name (setBuilt true)
          (updateFirst name (setBuilt false) ms))⟩
        ctx := ⟨List.replicate (k + 1) (eBuild name)⟩
        trace := (s.trace ++ (runnablesOf rs).map (.runInteractive name)) ++
          [.saveState name { m.state with built := true }] } := by
  have hname := findModuleByName_name hm
  subst hname
  unfold build
  refine bind_ok' (getModule_run_ok hs hm) ?_
  refine bind_ok' (stageBuild_run m.name s) ?_
  show executeStaged W _ = _
  unfold executeStaged
  refine bind_ok' (getS_run _) ?_
  show applyList W (s.ctx.stagedStates ++ [eBuild m.name]) _ = _
  have hqq : s.ctx.stagedStates ++ [eBuild m.name] =
      eBuild m.name :: List.replicate k (eBuild m.name) := by
    rw [hq, ← List.replicate_succ', List.replicate_succ]
  rw [hqq]
  show (applyChange W (eBuild m.name) >>= fun _ =>
    applyList W (List.replicate k (eBuild m.name))) _ = _
  have hm1 := findModuleByName_updateFirst_self (setBuilt false) (setBuilt_name false) hm
  refine bind_ok' (applyChange_eBuild_run ?_ hm1 rfl hb htr hW) ?_
  · rw [hs]
    rfl
  rw [applyList_eBuild_skip k rfl
    (findModuleByName_updateFirst_self (setBuilt true) (setBuilt_name true) hm1) rfl]
  rfl

/-- Number of runnable executions (process-manager runInteractive calls)
recorded in a trace. -/
def countInteractiveRuns (tr : List Effect) : Nat :=
  (tr.filter (fun e => match e with | .runInteractive _ _ => true | _ => false)).length

theorem countInteractiveRuns_append (a b : List Effect) :
    countInteractiveRuns (a ++ b) = countInteractiveRuns a + countInteractiveRuns b := by
  simp [countInteractiveRuns, List.filter_append]

theorem countInteractiveRuns_map (n : String) (rl : List Runnable) :
    countInteractiveRuns (rl.map (.runInteractive n)) = rl.length := by
  induction rl with
  | nil => rfl
  | cons r rest ih => simpa [countInteractiveRuns, List.filter] using ih

/-- Registry for the C2 examples: one module with a build command and a
fresh state. -/
def exRegC2 : List Module :=
  [{ name := "app"
     spec := { name := "app", build := some (.single (.cmd "make")), migrations := none }
     state := freshState
     services := []
     availableRuntimes := [.Local] }]

def exSC2 : S := { bbox := ⟨some exRegC2⟩, ctx := ⟨[]⟩, trace := [] }

/-- C2 counterexample: after a first top-level build, state.built is true,
yet a second top-level build executes the build runnable again — the trace
holds two runInteractive effects, not one, because stageBuild resets
state.built to false before staging. -/
theorem C2_counterexample :
    countInteractiveRuns ((build exW "app" exSC2).state).trace = 1 ∧
    (findModuleByName (((build exW "app" exSC2).state).bbox.modules.getD []) "app").map
      (fun m => m.state.built) = some true ∧
    countInteractiveRuns
      ((build exW "app" ((build exW "app" exSC2).state)).state).trace = 2 :=
  ⟨by decide, by decide, by decide⟩

/-- C2 amended: the top-level build operation is a forced rebuild — it
resets state.built to false before staging, so every call executes the
declared build runnable once; two sequential calls on a fresh context
execute it twice (the second call is not a no-op even though state.built
is true after the first call).  Only the internal build-if-needed staging
used by start and value resolution skips an already built module. -/
theorem C2_build_twice_runs_twice (W : World) (s : S) (ms : List Module)
    (name : String) (m : Module) (rs : RunnableSpec)
    (hs : s.bbox.modules = some ms)
    (hm : findModuleByName ms name = some m)
    (hb : m.spec.build = some rs) (htr : rs.truthy = true)
    (hW : ∀ r ∈ runnablesOf rs, W.fails r = false)
    (hctx : s.ctx.stagedStates = []) :
    ∃ s1 s2 : S,
      build W name s = .ok () s1 ∧
      (findModuleByName (s1.bbox.modules.getD []) name).map
        (fun m' => m'.state.built) = some true ∧
      countInteractiveRuns s1.trace =
        countInteractiveRuns s.trace + (runnablesOf rs).length ∧
      build W name s1 = .ok () s2 ∧
      countInteractiveRuns s2.trace =
        countInteractiveRuns s.trace + 2 * (runnablesOf rs).length := by
  have hname := findModuleByName_name hm
  subst hname
  have h1 := build_run 0 hs hm hb htr hW (by simpa using hctx)
  have hm2 := findModuleByName_updateFirst_self (setBuilt true) (setBuilt_name true)
    (findModuleByName_updateFirst_self (setBuilt false) (setBuilt_name false) hm)
  refine ⟨_, _, h1, ?_, ?_, build_run 1 rfl hm2 hb htr hW rfl, ?_⟩
  · show Option.map _ (findModuleByName
      (updateFirst m.name (setBuilt true) (updateFirst m.name (setBuilt false) ms)) m.name) = _
    rw [hm2]
    rfl
  · rw [countInteractiveRuns_append, countInteractiveRuns_append,
      countInteractiveRuns_map]
    show countInteractiveRuns s.trace + (runnablesOf rs).length + 0 = _
    omega
  · rw [countInteractiveRuns_append, countInteractiveRuns_append,
      countInteractiveRuns_append, countInteractiveRuns_append,
      countInteractiveRuns_map]
    show countInteractiveRuns s.trace + (runnablesOf rs).length + 0 +
      (runnablesOf rs).length + 0 = _
    omega

/-- Witness for the amended C2 on the concrete registry. -/
theorem C2_build_twice_runs_twice_witness :
    ∃ s1 s2 : S,
      build exW "app" exSC2 = .ok () s1 ∧
      (findModuleByName (s1.bbox.modules.getD []) "app").map
        (fun m' => m'.state.built) = some true ∧
      countInteractiveRuns s1.trace =
        countInteractiveRuns exSC2.trace +
          (runnablesOf (.single (.cmd "make"))).length ∧
      build exW "app" s1 = .ok () s2 ∧
      countInteractiveRuns s2.trace =
        countInteractiveRuns exSC2.trace +
          2 * (runnablesOf (.single (.cmd "make"))).length :=
  C2_build_twice_runs_twice exW exSC2 exRegC2 "app" (exRegC2.headD exMigModule)
    (.single (.cmd "make")) rfl rfl rfl rfl (by decide) rfl

/-- The staged change pushed by stageMigrationsIfNeeded. -/
def eMig (n : String) : StagedChange :=
  .module n { built := none, ranAllMigrations := some true }

/-- Appending a ran migration id to a module through its registry
reference. -/
def pushMig (i : String) : Module → Module :=
  fun m => { m with state :=
    { m.state with ranMigrations := m.state.ranMigrations ++ [i] } }

theorem pushMig_name (i : String) (m : Module) : (pushMig i m).name = m.name := rfl

theorem stageMigrationsIfNeeded_run_stage {s : S} {ms : List Module} {n : String}
    {m : Module}
    (hs : s.bbox.modules = some ms) (hm : findModuleByName ms n = some m)
    (hne : getNotAppliedMigrations m ≠ []) :
    stageMigrationsIfNeeded n s =
      .ok () { s with ctx := ⟨s.ctx.stagedStates ++ [eMig n]⟩ } := by
  unfold stageMigrationsIfNeeded
  refine bind_ok' (readModule_run hs hm) ?_
  have hlen : ((getNotAppliedMigrations m).length == 0) = false := by
    cases hg : getNotAppliedMigrations m with
    | nil => exact absurd hg hne
    | cons a l => simp
  rw [hlen]
  rfl

/-- Failing run of runMigrate with pending migrations [i1, i2, i3] where
i1 succeeds and i2 fails: i1 runs and is persisted (one saveState), i2 is
attempted and its failure propagates, i3 never runs, ranAllMigrations is
not touched. -/
theorem runMigrate_run_fail {W : World} {n : String} {s : S} {ms : List Module}
    {m : Module} {migs : List (String × RunnableSpec)} {i1 i2 i3 : String}
    {r1 r2 : RunnableSpec} {rf : Runnable}
    (hs : s.bbox.modules = some ms) (hm : findModuleByName ms n = some m)
    (hmig : m.spec.migrations = some migs)
    (hpend : getNotAppliedMigrations m = [i1, i2, i3])
    (hl1 : lookupAssoc migs i1 = some r1) (hl2 : lookupAssoc migs i2 = some r2)
    (hOk1 : ∀ r ∈ runnablesOf r1, W.fails r = false)
    (hf2 : firstFail W (runnablesOf r2) = some rf) :
    runMigrate W n s = .err (failMsg rf)
      { bbox := ⟨some (updateFirst n (pushMig i1) ms)⟩
        ctx := s.ctx
        trace := ((s.trace ++ (runnablesOf r1).map (.runInteractive n)) ++
            [.saveState n (pushMig i1 m).state]) ++
          (attemptRuns W (runnablesOf r2)).map (.runInteractive n) } := by
  unfold runMigrate
  refine bind_ok' (readModule_run hs hm) ?_
  simp only [hmig, hpend]
  show ((migLoop W n migs [i1, i2, i3]) >>= fun _ =>
    modifyModuleState n _ >>= fun _ => saveStateM n) s = _
  refine bind_err _ ?_
  show ((match lookupAssoc migs i1 with
    | none => throwE "Internal: migration not found"
    | some rs => runInteractive W n rs) >>= fun _ =>
    modifyModuleState n _ >>= fun _ => saveStateM n >>= fun _ =>
      migLoop W n migs [i2, i3]) s = _
  simp only [hl1]
  refine bind_ok' (runInteractive_run_ok s hOk1) ?_
  refine bind_ok' (modifyModuleState_run n _ _) ?_
  refine bind_ok' (@saveStateM_run _ (updateFirst n (pushMig i1) ms) n (pushMig i1 m)
    ?_ (findModuleByName_updateFirst_self _ (pushMig_name i1) hm)) ?_
  · rw [hs]
    rfl
  show ((match lookupAssoc migs i2 with
    | none => throwE "Internal: migration not found"
    | some rs => runInteractive W n rs) >>= fun _ =>
    modifyModuleState n _ >>= fun _ => saveStateM n >>= fun _ =>
      migLoop W n migs [i3]) _ = _
  simp only [hl2]
  refine (bind_err _ (runInteractive_run_err _ hf2)).trans ?_
  rw [hs]
  rfl

/-- C3: top-level migrate with pending migrations [i1, i2, i3] where i1
succeeds and i2's runnable fails: i1 runs, its id is appended to
ranMigrations and persisted by exactly one durable write, i2 is attempted
and its error propagates to the caller, i3 never runs, and
ranAllMigrations stays false (it is only set after the whole batch). -/
theorem C3_migration_partial_failure (W : World) (s : S) (ms : List Module)
    (name : String) (m : Module) (migs : List (String × RunnableSpec))
    (i1 i2 i3 : String) (r1 r2 : RunnableSpec) (rf : Runnable)
    (hs : s.bbox.modules = some ms) (hm : findModuleByName ms name = some m)
    (hmig : m.spec.migrations = some migs)
    (hpend : getNotAppliedMigrations m = [i1, i2, i3])
    (hl1 : lookupAssoc migs i1 = some r1) (hl2 : lookupAssoc migs i2 = some r2)
    (hOk1 : ∀ r ∈ runnablesOf r1, W.fails r = false)
    (hf2 : firstFail W (runnablesOf r2) = some rf)
    (hctx : s.ctx.stagedStates = [])
    (hrall : m.state.ranAllMigrations = false) :
    migrate W name s = .err (failMsg rf)
      { bbox := ⟨some (updateFirst name (pushMig i1) ms)⟩
        ctx := ⟨[eMig name]⟩
        trace := ((s.trace ++ (runnablesOf r1).map (.runInteractive name)) ++
            [.saveState name (pushMig i1 m).state]) ++
          (attemptRuns W (runnablesOf r2)).map (.runInteractive name) } ∧
    (pushMig i1 m).state.ranMigrations = m.state.ranMigrations ++ [i1] ∧
    (pushMig i1 m).state.ranAllMigrations = false ∧
    findModuleByName (updateFirst name (pushMig i1) ms) name = some (pushMig i1 m) := by
  have hname := findModuleByName_name hm
  subst hname
  refine ⟨?_, rfl, hrall, findModuleByName_updateFirst_self _ (pushMig_name i1) hm⟩
  unfold migrate
  refine bind_ok' (getModule_run_ok hs hm) ?_
  refine bind_ok' (stageMigrationsIfNeeded_run_stage hs hm (by rw [hpend]; simp)) ?_
  show executeStaged W _ = _
  unfold executeStaged
  refine bind_ok' (getS_run _) ?_
  show applyList W (s.ctx.stagedStates ++ [eMig m.name]) _ = _
  rw [hctx]
  show ((readModule m.name >>= fun m' =>
    ((pure () : M Unit) >>= fun _ => runMigrate W m.name)) >>= fun _ =>
      applyList W []) _ = _
  refine bind_err _ ?_
  refine bind_ok' (readModule_run hs hm) ?_
  refine bind_ok' (pure_run () _) ?_
  exact runMigrate_run_fail hs hm hmig hpend hl1 hl2 hOk1 hf2

/-- Registry for the C3 witness: a module with three migrations, none
applied yet. -/
def exRegC3 : List Module :=
  [{ name := "db"
     spec :=
       { name := "db"
         build := none
         migrations := some [("m1", .single (.cmd "mig1")), ("m2", .single (.cmd "mig2")),
           ("m3", .single (.cmd "mig3"))] }
     state := freshState
     services := []
     availableRuntimes := [.Local] }]

def exSC3 : S := { bbox := ⟨some exRegC3⟩, ctx := ⟨[]⟩, trace := [] }

/-- World for the C3 witness: the second migration command fails. -/
def exWC3 : World where
  fails := fun r => r == .cmd "mig2"
  runOutput := fun _ _ => .vNull
  findServiceProcess := fun _ => none

/-- Witness for C3 on the concrete registry. -/
theorem C3_migration_partial_failure_witness :
    migrate exWC3 "db" exSC3 = .err (failMsg (.cmd "mig2"))
      { bbox := ⟨some (updateFirst "db" (pushMig "m1") exRegC3)⟩
        ctx := ⟨[eMig "db"]⟩
        trace := ((exSC3.trace ++
            (runnablesOf (.single (.cmd "mig1"))).map (.runInteractive "db")) ++
            [.saveState "db" (pushMig "m1" (exRegC3.headD exMigModule)).state]) ++
          (attemptRuns exWC3 (runnablesOf (.single (.cmd "mig2")))).map
            (.runInteractive "db") } ∧
    (pushMig "m1" (exRegC3.headD exMigModule)).state.ranMigrations =
      (exRegC3.headD exMigModule).state.ranMigrations ++ ["m1"] ∧
    (pushMig "m1" (exRegC3.headD exMigModule)).state.ranAllMigrations = false ∧
    findModuleByName (updateFirst "db" (pushMig "m1") exRegC3) "db" =
      some (pushMig "m1" (exRegC3.headD exMigModule)) :=
  C3_migration_partial_failure exWC3 exSC3 exRegC3 "db" (exRegC3.headD exMigModule)
    [("m1", .single (.cmd "mig1")), ("m2", .single (.cmd "mig2")), ("m3", .single (.cmd "mig3"))]
    "m1" "m2" "m3" (.single (.cmd "mig1")) (.single (.cmd "mig2")) (.cmd "mig2")
    rfl rfl rfl (by decide) rfl rfl (by decide) (by decide) rfl rfl

/-- The service names of Online start-effects in a staged queue, in queue
order. -/
def onlineNames (q : List StagedChange) : List String :=
  q.filterMap (fun c => match c with
    | .service n st => if st.processStatus == some .Online then some n else none
    | .module _ _ => none)

theorem onlineNames_append (q1 q2 : List StagedChange) :
    onlineNames (q1 ++ q2) = onlineNames q1 ++ onlineNames q2 := by
  simp [onlineNames, List.filterMap_append]

/-- What stageBuildIfNeeded stages for a module in a given registry
state. -/
def stageBuildDelta (mm : Module) (n : String) : List StagedChange :=
  if (mm.state.built ||
      !(match mm.spec.build with | none => false | some rs => rs.truthy)) = true
  then [] else [eBuild n]

/-- What stageMigrationsIfNeeded stages. -/
def stageMigrationsDelta (mm : Module) (n : String) : List StagedChange :=
  if ((getNotAppliedMigrations mm).length == 0) = true then [] else [eMig n]

/-- What stageStart stages: possible build and migration changes for the
owning module, then the Online service change. -/
def stageStartDelta (mm : Module) (mn sn : String) : List StagedChange :=
  (stageBuildDelta mm mn ++ stageMigrationsDelta mm mn) ++ [.service sn ⟨some .Online⟩]

theorem stageBuildIfNeeded_run {s : S} {ms : List Module} {n : String} {mm : Module}
    (hs : s.bbox.modules = some ms) (hmm : findModuleByName ms n = some mm) :
    stageBuildIfNeeded n s =
      .ok () { s with ctx := ⟨s.ctx.stagedStates ++ stageBuildDelta mm n⟩ } := by
  unfold stageBuildIfNeeded stageBuildDelta
  refine bind_ok' (readModule_run hs hmm) ?_
  by_cases h : (mm.state.built ||
      !(match mm.spec.build with | none => false | some rs => rs.truthy)) = true
  · rw [if_pos h, if_pos h]
    show Res.ok () s = _
    simp
  · rw [if_neg h, if_neg h]
    rfl

theorem stageMigrationsIfNeeded_run {s : S} {ms : List Module} {n : String}
    {mm : Module}
    (hs : s.bbox.modules = some ms) (hmm : findModuleByName ms n = some mm) :
    stageMigrationsIfNeeded n s =
      .ok () { s with ctx := ⟨s.ctx.stagedStates ++ stageMigrationsDelta mm n⟩ } := by
  unfold stageMigrationsIfNeeded stageMigrationsDelta
  refine bind_ok' (readModule_run hs hmm) ?_
  by_cases h : ((getNotAppliedMigrations mm).length == 0) = true
  · rw [if_pos h, if_pos h]
    show Res.ok () s = _
    simp
  · rw [if_neg h, if_neg h]
    rfl

theorem stageStart_run {s : S} {ms : List Module} {mn sn : String} {mm : Module}
    (hs : s.bbox.modules = some ms) (hmm : findModuleByName ms mn = some mm) :
    stageStart mn sn s =
      .ok () { s with ctx := ⟨s.ctx.stagedStates ++ stageStartDelta mm mn sn⟩ } := by
  unfold stageStart
  refine bind_ok' (stageBuildIfNeeded_run hs hmm) ?_
  refine bind_ok' (stageMigrationsIfNeeded_run hs hmm) ?_
  show stageServiceState sn _ _ = _
  unfold stageServiceState
  show Res.ok () _ = _
  simp [stageStartDelta, List.append_assoc]

theorem onlineNames_stageStartDelta (mm : Module) (mn sn : String) :
    onlineNames (stageStartDelta mm mn sn) = [sn] := by
  unfold stageStartDelta stageBuildDelta stageMigrationsDelta
  split <;> split <;> simp [onlineNames, eBuild, eMig]

theorem stageStartDeps_nil (fuel : Nat) : stageStartDeps fuel [] = pure () := by
  cases fuel <;> rfl

/-- The module of a found service can itself be found by name (the head
of the registry scan with that name). -/
theorem findServiceRes_module_found {ms : List Module} {n : String}
    {r : Module × Service} :
    findServiceRes ms n = some r → ∃ mm, findModuleByName ms r.1.name = some mm := by
  induction ms with
  | nil => intro h; simp [findServiceRes] at h
  | cons m0 rest ih =>
    intro h
    unfold findServiceRes at h
    cases hf : m0.services.find? (fun sv => sv.name == n) with
    | some sv =>
      rw [hf] at h
      cases h
      exact ⟨m0, by simp [findModuleByName, List.find?]⟩
    | none =>
      rw [hf] at h
      by_cases h0 : (m0.name == r.1.name) = true
      · exact ⟨m0, by simp [findModuleByName, List.find?, h0]⟩
      · obtain ⟨mm, hmm⟩ := ih h
        refine ⟨mm, ?_⟩
        have hb0 : (m0.name == r.1.name) = false := by simpa using h0
        simp only [findModuleByName, List.find?, hb0]
        exact hmm

/-- C1: starting a service A with dependency chain A -> B -> C (C has no
dependencies) stages the Online start-effects of C, then B, then A, in
that order — each dependency is staged after its own transitive
dependencies and before its dependents, and the reconciliation phase does
not alter the staged queue. -/
theorem C1_start_dependency_order (W : World) (s : S) (ms : List Module)
    (a b c : String) (ra rb rc : Module × Service) (k : Nat)
    (hs : s.bbox.modules = some ms)
    (ha : findServiceRes ms a = some ra) (hda : ra.2.spec.dependencies = some [b])
    (hb : findServiceRes ms b = some rb) (hdb : rb.2.spec.dependencies = some [c])
    (hc : findServiceRes ms c = some rc) (hdc : rc.2.spec.dependencies = none) :
    onlineNames (((start W (k + 2) a s).state).ctx.stagedStates) =
      onlineNames s.ctx.stagedStates ++ [c, b, a] := by
  obtain ⟨mc, hmc⟩ := findServiceRes_module_found hc
  obtain ⟨mb, hmb⟩ := findServiceRes_module_found hb
  obtain ⟨ma, hma⟩ := findServiceRes_module_found ha
  have h2 : stageStartDeps (k + 1) [c] s =
      .ok () { s with ctx :=
        ⟨s.ctx.stagedStates ++ stageStartDelta mc rc.1.name rc.2.name⟩ } := by
    show (getService c >>= fun r =>
      (match r.2.spec.dependencies with
       | none => pure ()
       | some ds => stageStartDeps k ds) >>= fun _ =>
      stageStart r.1.name r.2.name >>= fun _ =>
      stageStartDeps k []) s = _
    refine bind_ok' (getService_run_ok hs hc) ?_
    show ((match rc.2.spec.dependencies with
      | none => pure ()
      | some ds => stageStartDeps k ds) >>= fun _ =>
      stageStart rc.1.name rc.2.name >>= fun _ =>
      stageStartDeps k []) s = _
    rw [hdc]
    refine bind_ok' (pure_run () s) ?_
    refine bind_ok' (stageStart_run hs hmc) ?_
    rw [stageStartDeps_nil]
    exact pure_run () _
  have h1 : stageStartDeps (k + 2) [b] s =
      .ok () { s with ctx :=
        ⟨(s.ctx.stagedStates ++ stageStartDelta mc rc.1.name rc.2.name) ++
          stageStartDelta mb rb.1.name rb.2.name⟩ } := by
    show (getService b >>= fun r =>
      (match r.2.spec.dependencies with
       | none => pure ()
       | some ds => stageStartDeps (k + 1) ds) >>= fun _ =>
      stageStart r.1.name r.2.name >>= fun _ =>
      stageStartDeps (k + 1) []) s = _
    refine bind_ok' (getService_run_ok hs hb) ?_
    show ((match rb.2.spec.dependencies with
      | none => pure ()
      | some ds => stageStartDeps (k + 1) ds) >>= fun _ =>
      stageStart rb.1.name rb.2.name >>= fun _ =>
      stageStartDeps (k + 1) []) s = _
    rw [hdb]
    refine bind_ok' h2 ?_
    refine bind_ok' (stageStart_run hs hmb) ?_
    rw [stageStartDeps_nil]
    exact pure_run () _
  have hrun : start W (k + 2) a s = executeStaged W
      { s with ctx := ⟨((s.ctx.stagedStates ++
          stageStartDelta mc rc.1.name rc.2.name) ++
          stageStartDelta mb rb.1.name rb.2.name) ++
          stageStartDelta ma ra.1.name ra.2.name⟩ } := by
    unfold start
    refine bind_ok' (getService_run_ok hs ha) ?_
    show (stageStartDependenciesIfNeeded (k + 2) ra.2 >>= fun _ =>
      stageStart ra.1.name ra.2.name >>= fun _ => executeStaged W) s = _
    unfold stageStartDependenciesIfNeeded
    rw [hda]
    show ((stageStartDeps (k + 2) [b]) >>= fun _ =>
      stageStart ra.1.name ra.2.name >>= fun _ => executeStaged W) s = _
    refine bind_ok' h1 ?_
    refine bind_ok' (stageStart_run hs hma) ?_
    rfl
  rw [hrun, keepCtx_executeStaged]
  show onlineNames (((s.ctx.stagedStates ++
      stageStartDelta mc rc.1.name rc.2.name) ++
      stageStartDelta mb rb.1.name rb.2.name) ++
      stageStartDelta ma ra.1.name ra.2.name) = _
  rw [onlineNames_append, onlineNames_append, onlineNames_append,
    onlineNames_stageStartDelta, onlineNames_stageStartDelta,
    onlineNames_stageStartDelta,
    findServiceRes_name ha, findServiceRes_name hb, findServiceRes_name hc]
  simp

/-- A service with only declared dependencies. -/
def depService (n : String) (deps : Option (List String)) : Service where
  name := n
  spec := { name := n, dependencies := deps, valueProviders := none, values := none, env := [] }
  state := { processStatus := .Unknown }

def modC1A : Module where
  name := "modA"
  spec := { name := "modA", build := none, migrations := none }
  state := freshState
  services := [depService "svcA" (some ["svcB"])]
  availableRuntimes := [.Local]

def modC1B : Module where
  name := "modB"
  spec := { name := "modB", build := none, migrations := none }
  state := freshState
  services := [depService "svcB" (some ["svcC"])]
  availableRuntimes := [.Local]

def modC1C : Module where
  name := "modC"
  spec := { name := "modC", build := none, migrations := none }
  state := freshState
  services := [depService "svcC" none]
  availableRuntimes := [.Local]

def exRegC1 : List Module := [modC1A, modC1B, modC1C]

def exSC1 : S := { bbox := ⟨some exRegC1⟩, ctx := ⟨[]⟩, trace := [] }

/-- Witness for C1 on a concrete three-service dependency chain. -/
theorem C1_start_dependency_order_witness :
    onlineNames (((start exW (0 + 2) "svcA" exSC1).state).ctx.stagedStates) =
      onlineNames exSC1.ctx.stagedStates ++ ["svcC", "svcB", "svcA"] :=
  C1_start_dependency_order exW exSC1 exRegC1 "svcA" "svcB" "svcC"
    (modC1A, depService "svcA" (some ["svcB"]))
    (modC1B, depService "svcB" (some ["svcC"]))
    (modC1C, depService "svcC" none) 0
    rfl rfl rfl rfl rfl rfl rfl

/-! C10 infrastructure: the engine can only raise the unhandled-status
error from the default branch of the service-status switch, and the public
operations never stage an Unknown status, so that branch is unreachable
through the public interface. -/

/-- The message of the UnhandledStateError branch of executeStaged. -/
def unhandledMsg : String := "Unhandled ServiceProcessStatus Unknown"

/-- A staged change the reconciliation switch can always handle: service
changes never carry the Unknown status (module changes are always
handled). -/
def goodChange : StagedChange → Prop
  | .service _ st => st.processStatus ≠ some .Unknown
  | .module _ _ => True

instance (c : StagedChange) : Decidable (goodChange c) :=
  match c with
  | .module _ _ => isTrue trivial
  | .service _ st => inferInstanceAs (Decidable (st.processStatus ≠ some .Unknown))

/-- All staged service changes in the queue are handled ones. -/
def GoodQueue (s : S) : Prop := ∀ c ∈ s.ctx.stagedStates, goodChange c

/-- f never fails with the unhandled-status message, from any state. -/
def NoU {α : Type} (f : M α) : Prop :=
  ∀ s e s', f s = .err e s' → e ≠ unhandledMsg

/-- f never fails with the unhandled-status message when started from a
queue of handled changes. -/
def NoUI {α : Type} (f : M α) : Prop :=
  ∀ s, GoodQueue s → ∀ e s', f s = .err e s' → e ≠ unhandledMsg

/-- f keeps the queue made of handled changes. -/
def GoodPres {α : Type} (f : M α) : Prop :=
  ∀ s, GoodQueue s → GoodQueue ((f s).state)

theorem noUI_of_noU {α : Type} {f : M α} (h : NoU f) : NoUI f :=
  fun s _ e s' hh => h s e s' hh

theorem goodPres_of_keepCtx {α : Type} {f : M α} (h : KeepCtx f) : GoodPres f := by
  intro s hg c hc
  rw [show ((f s).state).ctx.stagedStates = s.ctx.stagedStates from by rw [h s]] at hc
  exact hg c hc

theorem noU_pure {α : Type} (a : α) : NoU (pure a : M α) := by
  intro s e s' h
  rw [pure_run] at h
  cases h

theorem noU_getS : NoU getS := by
  intro s e s' h
  rw [getS_run] at h
  cases h

theorem noU_modifyS (f : S → S) : NoU (modifyS f) := by
  intro s e s' h
  rw [modifyS_run] at h
  cases h

theorem noU_emit (ef : Effect) : NoU (emit ef) := noU_modifyS _

theorem noU_modifyModuleState (n : String) (f : ModuleState → ModuleState) :
    NoU (modifyModuleState n f) := noU_modifyS _

theorem noU_throwE {α : Type} {e0 : String} (he : e0 ≠ unhandledMsg) :
    NoU (throwE e0 : M α) := by
  intro s e s' h
  rw [throwE_run] at h
  cases h
  exact he

theorem noU_bind {α β : Type} {x : M α} {f : α → M β}
    (hx : NoU x) (hf : ∀ a, NoU (f a)) : NoU (x >>= f) := by
  intro s e s' h
  rw [show (x >>= f) s = mBind x f s from rfl] at h
  unfold mBind at h
  cases hx0 : x s with
  | ok a s1 =>
    rw [hx0] at h
    exact hf a s1 e s' h
  | err e1 s1 =>
    rw [hx0] at h
    cases h
    exact hx s _ _ hx0

theorem noU_ite {α : Type} {c : Prop} [Decidable c] {x y : M α}
    (hx : NoU x) (hy : NoU y) : NoU (ite c x y) := by
  by_cases h : c
  · rw [if_pos h]; exact hx
  · rw [if_neg h]; exact hy

theorem goodPres_bind {α β : Type} {x : M α} {f : α → M β}
    (hx : GoodPres x) (hf : ∀ a, GoodPres (f a)) : GoodPres (x >>= f) := by
  intro s hg
  show GoodQueue ((mBind x f s).state)
  unfold mBind
  cases hx0 : x s with
  | ok a s1 =>
    have h1 := hx s hg
    rw [hx0] at h1
    exact hf a s1 h1
  | err e1 s1 =>
    have h1 := hx s hg
    rw [hx0] at h1
    exact h1

theorem noUI_bind {α β : Type} {x : M α} {f : α → M β}
    (hx : NoUI x) (hp : GoodPres x) (hf : ∀ a, NoUI (f a)) : NoUI (x >>= f) := by
  intro s hg e s' h
  rw [show (x >>= f) s = mBind x f s from rfl] at h
  unfold mBind at h
  cases hx0 : x s with
  | ok a s1 =>
    rw [hx0] at h
    have h1 := hp s hg
    rw [hx0] at h1
    exact hf a s1 h1 e s' h
  | err e1 s1 =>
    rw [hx0] at h
    cases h
    exact hx s hg _ _ hx0

/-- Distinct first characters make strings distinct. -/
theorem strHead_ne {a b : String} (h : a.data.head? ≠ b.data.head?) : a ≠ b :=
  fun he => h (by rw [he])

theorem failMsg_ne_U (r : Runnable) : failMsg r ≠ unhandledMsg := by
  cases r with
  | cmd s =>
    intro he
    have h2 := congrArg (fun t : String => t.data.head?) he
    have h3 : some 'C' = some 'U' := h2
    cases h3
  | fn s =>
    intro he
    have h2 := congrArg (fun t : String => t.data.head?) he
    have h3 : some 'F' = some 'U' := h2
    cases h3

theorem serviceNotFoundMsg_ne_U (n : String) : serviceNotFoundMsg n ≠ unhandledMsg := by
  intro he
  have h2 := congrArg (fun t : String => t.data.head?) he
  have h3 : some 'S' = some 'U' := h2
  cases h3

theorem moduleNotFoundMsg_ne_U (n : String) (ms : List Module) :
    moduleNotFoundMsg n ms ≠ unhandledMsg := by
  intro he
  have h2 := congrArg (fun t : String => t.data.head?) he
  have h3 : some 'M' = some 'U' := h2
  cases h3

theorem keepCtx_getAllModules : KeepCtx getAllModules := by
  unfold getAllModules
  refine keepCtx_bind keepCtx_getS ?_
  intro a
  cases h : a.bbox.modules with
  | none => simp only [h]; exact keepCtx_throwE _
  | some ms => simp only [h]; exact keepCtx_pure _

theorem keepCtx_getModule (n : String) : KeepCtx (getModule n) := by
  unfold getModule
  refine keepCtx_bind keepCtx_getAllModules ?_
  intro ms
  cases h : getModuleCore ms n with
  | ok m => simp only [h]; exact keepCtx_pure _
  | error e => simp only [h]; exact keepCtx_throwE _

theorem keepCtx_getService (n : String) : KeepCtx (getService n) := by
  unfold getService
  refine keepCtx_bind keepCtx_getAllModules ?_
  intro ms
  cases h : getServiceCore ms n with
  | ok r => simp only [h]; exact keepCtx_pure _
  | error e => simp only [h]; exact keepCtx_throwE _

theorem keepCtx_listServices (W : World) (m : Module) :
    ∀ svs : List Service, KeepCtx (listServices W m svs)
  | [] => keepCtx_pure _
  | _ :: rest =>
    keepCtx_bind (keepCtx_emit _)
      (fun _ => keepCtx_bind (keepCtx_listServices W m rest) (fun _ => keepCtx_pure _))

theorem keepCtx_listModules (W : World) : ∀ ms : List Module, KeepCtx (listModules W ms)
  | [] => keepCtx_pure _
  | m :: rest =>
    keepCtx_bind (keepCtx_listServices W m m.services)
      (fun _ => keepCtx_bind (keepCtx_listModules W rest) (fun _ => keepCtx_pure _))

theorem keepCtx_list (W : World) : KeepCtx (list W) := by
  unfold list
  exact keepCtx_bind keepCtx_getAllModules (fun ms => keepCtx_listModules W ms)

theorem noU_readModule (n : String) : NoU (readModule n) := by
  unfold readModule
  refine noU_bind noU_getS ?_
  intro a
  cases h : a.bbox.modules with
  | none => simp only [h]; exact noU_throwE (by decide)
  | some ms =>
    simp only [h]
    cases h2 : findModuleByName ms n with
    | none => simp only [h2]; exact noU_throwE (by decide)
    | some m => simp only [h2]; exact noU_pure _

theorem noU_getAllModules : NoU getAllModules := by
  unfold getAllModules
  refine noU_bind noU_getS ?_
  intro a
  cases h : a.bbox.modules with
  | none => simp only [h]; exact noU_throwE (by decide)
  | some ms => simp only [h]; exact noU_pure _

theorem noU_getModule (n : String) : NoU (getModule n) := by
  unfold getModule
  refine noU_bind noU_getAllModules ?_
  intro ms
  unfold getModuleCore
  cases h : findModuleByName ms n with
  | none => simp only [h]; exact noU_throwE (moduleNotFoundMsg_ne_U n ms)
  | some m => simp only [h]; exact noU_pure _

theorem noU_getService (n : String) : NoU (getService n) := by
  unfold getService
  refine noU_bind noU_getAllModules ?_
  intro ms
  unfold getServiceCore
  cases h : findServiceRes ms n with
  | none => simp only [h]; exact noU_throwE (serviceNotFoundMsg_ne_U n)
  | some r => simp only [h]; exact noU_pure _

theorem noU_saveStateM (n : String) : NoU (saveStateM n) := by
  unfold saveStateM
  exact noU_bind (noU_readModule n) (fun m => noU_emit _)

theorem noU_runRunnable (W : World) (n : String) (r : Runnable) :
    NoU (runRunnable W n r) := by
  unfold runRunnable
  exact noU_bind (noU_emit _)
    (fun _ => noU_ite (noU_throwE (failMsg_ne_U r)) (noU_pure _))

theorem noU_runList (W : World) (n : String) : ∀ rs : List Runnable, NoU (runList W n rs)
  | [] => noU_pure ()
  | r :: rest =>
    noU_bind (noU_runRunnable W n r) (fun _ => noU_runList W n rest)

theorem noU_runInteractive (W : World) (n : String) :
    ∀ rs : RunnableSpec, NoU (runInteractive W n rs)
  | .single r => noU_runRunnable W n r
  | .many rs => noU_runList W n rs

theorem noU_runBuild (W : World) (n : String) : NoU (runBuild W n) := by
  unfold runBuild
  refine noU_bind (noU_readModule n) ?_
  intro m
  cases hb : m.spec.build with
  | none => simp only [hb]; exact noU_throwE (by decide)
  | some rs =>
    simp only [hb]
    refine noU_ite ?_ (noU_throwE (by decide))
    exact noU_bind (noU_runInteractive W n rs)
      (fun _ => noU_bind (noU_modifyModuleState n _) (fun _ => noU_saveStateM n))

theorem noU_migLoop (W : World) (n : String) (migs : List (String × RunnableSpec)) :
    ∀ ids : List String, NoU (migLoop W n migs ids)
  | [] => noU_pure ()
  | migId :: rest => by
    show NoU (_ >>= _)
    refine noU_bind ?_ ?_
    · cases hl : lookupAssoc migs migId with
      | none => simp only [hl]; exact noU_throwE (by decide)
      | some rs => simp only [hl]; exact noU_runInteractive W n rs
    · intro _
      exact noU_bind (noU_modifyModuleState n _)
        (fun _ => noU_bind (noU_saveStateM n) (fun _ => noU_migLoop W n migs rest))

theorem noU_runMigrate (W : World) (n : String) : NoU (runMigrate W n) := by
  unfold runMigrate
  refine noU_bind (noU_readModule n) ?_
  intro m
  cases hb : m.spec.migrations with
  | none => simp only [hb]; exact noU_throwE (by decide)
  | some migs =>
    simp only [hb]
    refine noU_ite (noU_pure _) ?_
    exact noU_bind (noU_migLoop W n migs _)
      (fun _ => noU_bind (noU_modifyModuleState n _) (fun _ => noU_saveStateM n))

theorem noU_applyChange (W : World) {c : StagedChange} (hc : goodChange c) :
    NoU (applyChange W c) := by
  cases c with
  | module name st =>
    unfold applyChange
    refine noU_bind (noU_readModule name) ?_
    intro m
    refine noU_bind ?_ ?_
    · cases hb : st.built with
      | none => simp only [hb]; exact noU_pure _
      | some b =>
        simp only [hb]
        exact noU_ite (noU_runBuild W name) (noU_pure _)
    · intro _
      cases hr : st.ranAllMigrations with
      | none => simp only [hr]; exact noU_pure _
      | some _ => simp only [hr]; exact noU_runMigrate W name
  | service n st =>
    unfold applyChange
    cases hp : st.processStatus with
    | none => simp only [hp]; exact noU_pure _
    | some ps =>
      cases ps with
      | Unknown => exact absurd hp hc
      | Online => simp only [hp]; exact noU_emit _
      | Offline => simp only [hp]; exact noU_emit _

theorem noU_applyList (W : World) :
    ∀ q : List StagedChange, (∀ c ∈ q, goodChange c) → NoU (applyList W q)
  | [], _ => noU_pure ()
  | c :: rest, h =>
    noU_bind (noU_applyChange W (h c (by simp)))
      (fun _ => noU_applyList W rest (fun c' hc' => h c' (by simp [hc'])))

theorem noUI_executeStaged (W : World) : NoUI (executeStaged W) := by
  intro s hg e s' h
  unfold executeStaged at h
  rw [bind_ok _ (getS_run s)] at h
  exact noU_applyList W s.ctx.stagedStates hg s e s' h

theorem goodPres_ite {α : Type} {c : Prop} [Decidable c] {x y : M α}
    (hx : GoodPres x) (hy : GoodPres y) : GoodPres (ite c x y) := by
  by_cases h : c
  · rw [if_pos h]; exact hx
  · rw [if_neg h]; exact hy

theorem goodPres_pure {α : Type} (a : α) : GoodPres (pure a : M α) :=
  goodPres_of_keepCtx (keepCtx_pure a)

theorem goodPres_throwE {α : Type} (e : String) : GoodPres (throwE e : M α) :=
  goodPres_of_keepCtx (keepCtx_throwE e)

theorem goodPres_stageModuleState (n : String) (st : StagedModuleState) :
    GoodPres (stageModuleState n st) := by
  intro s hg c hc
  have hmem : c ∈ s.ctx.stagedStates ++ [.module n st] := hc
  rcases List.mem_append.mp hmem with h1 | h1
  · exact hg c h1
  · rw [List.mem_singleton.mp h1]
    trivial

theorem goodPres_stageServiceState_good {n : String} {st : StagedServiceState}
    (hgood : st.processStatus ≠ some .Unknown) :
    GoodPres (stageServiceState n st) := by
  intro s hg c hc
  have hmem : c ∈ s.ctx.stagedStates ++ [.service n st] := hc
  rcases List.mem_append.mp hmem with h1 | h1
  · exact hg c h1
  · rw [List.mem_singleton.mp h1]
    exact hgood

theorem goodPres_stageBuild (n : String) : GoodPres (stageBuild n) := by
  unfold stageBuild
  exact goodPres_bind (goodPres_of_keepCtx (keepCtx_modifyModuleState n _))
    (fun _ => goodPres_stageModuleState n _)

theorem noU_stageBuild (n : String) : NoU (stageBuild n) := by
  unfold stageBuild
  exact noU_bind (noU_modifyModuleState n _) (fun _ => noU_modifyS _)

theorem goodPres_stageBuildIfNeeded (n : String) : GoodPres (stageBuildIfNeeded n) := by
  unfold stageBuildIfNeeded
  refine goodPres_bind (goodPres_of_keepCtx (keepCtx_readModule n)) ?_
  intro m
  exact goodPres_ite (goodPres_pure _) (goodPres_stageModuleState n _)

theorem noU_stageBuildIfNeeded (n : String) : NoU (stageBuildIfNeeded n) := by
  unfold stageBuildIfNeeded
  refine noU_bind (noU_readModule n) ?_
  intro m
  exact noU_ite (noU_pure _) (noU_modifyS _)

theorem goodPres_stageMigrationsIfNeeded (n : String) :
    GoodPres (stageMigrationsIfNeeded n) := by
  unfold stageMigrationsIfNeeded
  refine goodPres_bind (goodPres_of_keepCtx (keepCtx_readModule n)) ?_
  intro m
  exact goodPres_ite (goodPres_pure _) (goodPres_stageModuleState n _)

theorem noU_stageMigrationsIfNeeded (n : String) : NoU (stageMigrationsIfNeeded n) := by
  unfold stageMigrationsIfNeeded
  refine noU_bind (noU_readModule n) ?_
  intro m
  exact noU_ite (noU_pure _) (noU_modifyS _)

theorem goodPres_stageStart (mn sn : String) : GoodPres (stageStart mn sn) := by
  unfold stageStart
  refine goodPres_bind (goodPres_stageBuildIfNeeded mn) ?_
  intro _
  refine goodPres_bind (goodPres_stageMigrationsIfNeeded mn) ?_
  intro _
  exact goodPres_stageServiceState_good (by decide)

theorem noU_stageStart (mn sn : String) : NoU (stageStart mn sn) := by
  unfold stageStart
  exact noU_bind (noU_stageBuildIfNeeded mn)
    (fun _ => noU_bind (noU_stageMigrationsIfNeeded mn) (fun _ => noU_modifyS _))

theorem goodPres_stageStartDeps :
    ∀ (fuel : Nat) (deps : List String), GoodPres (stageStartDeps fuel deps)
  | fuel, [] => by
    rw [stageStartDeps_nil]
    exact goodPres_pure ()
  | 0, d :: rest => goodPres_throwE _
  | Nat.succ fuel, d :: rest => by
    show GoodPres (getService d >>= _)
    refine goodPres_bind (goodPres_of_keepCtx (keepCtx_getService d)) ?_
    intro r
    refine goodPres_bind ?_ ?_
    · cases hd : r.2.spec.dependencies with
      | none => simp only [hd]; exact goodPres_pure _
      | some ds => simp only [hd]; exact goodPres_stageStartDeps fuel ds
    · intro _
      exact goodPres_bind (goodPres_stageStart _ _)
        (fun _ => goodPres_stageStartDeps fuel rest)

theorem noU_stageStartDeps :
    ∀ (fuel : Nat) (deps : List String), NoU (stageStartDeps fuel deps)
  | fuel, [] => by
    rw [stageStartDeps_nil]
    exact noU_pure ()
  | 0, d :: rest => noU_throwE (by decide)
  | Nat.succ fuel, d :: rest => by
    show NoU (getService d >>= _)
    refine noU_bind (noU_getService d) ?_
    intro r
    refine noU_bind ?_ ?_
    · cases hd : r.2.spec.dependencies with
      | none => simp only [hd]; exact noU_pure _
      | some ds => simp only [hd]; exact noU_stageStartDeps fuel ds
    · intro _
      exact noU_bind (noU_stageStart _ _) (fun _ => noU_stageStartDeps fuel rest)

theorem goodPres_stageStartDependenciesIfNeeded (fuel : Nat) (sv : Service) :
    GoodPres (stageStartDependenciesIfNeeded fuel sv) := by
  unfold stageStartDependenciesIfNeeded
  cases hd : sv.spec.dependencies with
  | none => exact goodPres_pure _
  | some deps => exact goodPres_stageStartDeps fuel deps

theorem noU_stageStartDependenciesIfNeeded (fuel : Nat) (sv : Service) :
    NoU (stageStartDependenciesIfNeeded fuel sv) := by
  unfold stageStartDependenciesIfNeeded
  cases hd : sv.spec.dependencies with
  | none => exact noU_pure _
  | some deps => exact noU_stageStartDeps fuel deps

theorem goodPres_executeStaged (W : World) : GoodPres (executeStaged W) :=
  goodPres_of_keepCtx (keepCtx_executeStaged W)

/-! Per-operation results: every public operation keeps the queue free of
Unknown service statuses and never raises the unhandled-status error. -/

theorem noUI_start (W : World) (fuel : Nat) (n : String) : NoUI (start W fuel n) := by
  unfold start
  refine noUI_bind (noUI_of_noU (noU_getService n))
    (goodPres_of_keepCtx (keepCtx_getService n)) ?_
  intro r
  refine noUI_bind (noUI_of_noU (noU_stageStartDependenciesIfNeeded fuel r.2))
    (goodPres_stageStartDependenciesIfNeeded fuel r.2) ?_
  intro _
  refine noUI_bind (noUI_of_noU (noU_stageStart _ _)) (goodPres_stageStart _ _) ?_
  intro _
  exact noUI_executeStaged W

theorem goodPres_start (W : World) (fuel : Nat) (n : String) :
    GoodPres (start W fuel n) := by
  unfold start
  refine goodPres_bind (goodPres_of_keepCtx (keepCtx_getService n)) ?_
  intro r
  refine goodPres_bind (goodPres_stageStartDependenciesIfNeeded fuel r.2) ?_
  intro _
  exact goodPres_bind (goodPres_stageStart _ _) (fun _ => goodPres_executeStaged W)

theorem noUI_stop (W : World) (n : String) : NoUI (stop W n) := by
  unfold stop
  refine noUI_bind (noUI_of_noU (noU_getService n))
    (goodPres_of_keepCtx (keepCtx_getService n)) ?_
  intro r
  refine noUI_bind (noUI_of_noU (noU_modifyS _))
    (goodPres_stageServiceState_good (by decide)) ?_
  intro _
  exact noUI_executeStaged W

theorem goodPres_stop (W : World) (n : String) : GoodPres (stop W n) := by
  unfold stop
  refine goodPres_bind (goodPres_of_keepCtx (keepCtx_getService n)) ?_
  intro r
  exact goodPres_bind (goodPres_stageServiceState_good (by decide))
    (fun _ => goodPres_executeStaged W)

theorem noUI_build (W : World) (n : String) : NoUI (build W n) := by
  unfold build
  refine noUI_bind (noUI_of_noU (noU_getModule n))
    (goodPres_of_keepCtx (keepCtx_getModule n)) ?_
  intro m
  refine noUI_bind (noUI_of_noU (noU_stageBuild _)) (goodPres_stageBuild _) ?_
  intro _
  exact noUI_executeStaged W

theorem goodPres_build (W : World) (n : String) : GoodPres (build W n) := by
  unfold build
  refine goodPres_bind (goodPres_of_keepCtx (keepCtx_getModule n)) ?_
  intro m
  exact goodPres_bind (goodPres_stageBuild _) (fun _ => goodPres_executeStaged W)

theorem noUI_migrate (W : World) (n : String) : NoUI (migrate W n) := by
  unfold migrate
  refine noUI_bind (noUI_of_noU (noU_getModule n))
    (goodPres_of_keepCtx (keepCtx_getModule n)) ?_
  intro m
  refine noUI_bind (noUI_of_noU (noU_stageMigrationsIfNeeded _))
    (goodPres_stageMigrationsIfNeeded _) ?_
  intro _
  exact noUI_executeStaged W

theorem goodPres_migrate (W : World) (n : String) : GoodPres (migrate W n) := by
  unfold migrate
  refine goodPres_bind (goodPres_of_keepCtx (keepCtx_getModule n)) ?_
  intro m
  exact goodPres_bind (goodPres_stageMigrationsIfNeeded _)
    (fun _ => goodPres_executeStaged W)

theorem noUI_provideValueInner (W : World) (v : String) :
    NoUI (provideValueInner W v) := by
  unfold provideValueInner
  refine noUI_bind (noUI_of_noU (noU_getService _))
    (goodPres_of_keepCtx (keepCtx_getService _)) ?_
  intro r
  cases hv : staticValOf r.2.spec.values (((jsSplit '.' v).drop 1).headD "") with
  | some v0 => simp only [hv]; exact noUI_of_noU (noU_pure _)
  | none =>
    simp only [hv]
    cases hp : providerOf r.2.spec.valueProviders (((jsSplit '.' v).drop 1).headD "") with
    | none =>
      simp only [hp]
      refine noUI_of_noU (noU_throwE ?_)
      intro he
      have h2 := congrArg (fun t : String => t.data.head?) he
      have h3 : some 'V' = some 'U' := h2
      cases h3
    | some prov =>
      simp only [hp]
      refine noUI_bind (noUI_of_noU (noU_stageBuildIfNeeded _))
        (goodPres_stageBuildIfNeeded _) ?_
      intro _
      refine noUI_bind (noUI_executeStaged W) (goodPres_executeStaged W) ?_
      intro _
      exact noUI_of_noU (noU_bind (noU_emit _) (fun _ => noU_pure _))

theorem goodPres_provideValueInner (W : World) (v : String) :
    GoodPres (provideValueInner W v) := by
  unfold provideValueInner
  refine goodPres_bind (goodPres_of_keepCtx (keepCtx_getService _)) ?_
  intro r
  cases hv : staticValOf r.2.spec.values (((jsSplit '.' v).drop 1).headD "") with
  | some v0 => simp only [hv]; exact goodPres_pure _
  | none =>
    simp only [hv]
    cases hp : providerOf r.2.spec.valueProviders (((jsSplit '.' v).drop 1).headD "") with
    | none => simp only [hp]; exact goodPres_throwE _
    | some prov =>
      simp only [hp]
      refine goodPres_bind (goodPres_stageBuildIfNeeded _) ?_
      intro _
      refine goodPres_bind (goodPres_executeStaged W) ?_
      intro _
      exact goodPres_bind (goodPres_of_keepCtx (keepCtx_emit _))
        (fun _ => goodPres_pure _)

theorem provideValue_state (W : World) (v : String) (s : S) :
    ((provideValue W v s).state) = ((provideValueInner W v s).state) := by
  unfold provideValue
  cases provideValueInner W v s <;> rfl

theorem noU_provideValue (W : World) (v : String) : NoU (provideValue W v) := by
  intro s e s' h
  unfold provideValue at h
  cases hi : provideValueInner W v s with
  | ok a s1 => rw [hi] at h; cases h
  | err e0 s0 =>
    rw [hi] at h
    cases h
    intro he
    have h2 := congrArg (fun t : String => t.data.head?) he
    have h3 : some 'C' = some 'U' := h2
    cases h3

theorem goodPres_provideValue (W : World) (v : String) :
    GoodPres (provideValue W v) := by
  intro s hg
  rw [provideValue_state]
  exact goodPres_provideValueInner W v s hg

theorem noU_listServices (W : World) (m : Module) :
    ∀ svs : List Service, NoU (listServices W m svs)
  | [] => noU_pure _
  | _ :: rest =>
    noU_bind (noU_emit _)
      (fun _ => noU_bind (noU_listServices W m rest) (fun _ => noU_pure _))

theorem noU_listModules (W : World) : ∀ ms : List Module, NoU (listModules W ms)
  | [] => noU_pure _
  | m :: rest =>
    noU_bind (noU_listServices W m m.services)
      (fun _ => noU_bind (noU_listModules W rest) (fun _ => noU_pure _))

theorem noU_list (W : World) : NoU (list W) := by
  unfold list
  exact noU_bind noU_getAllModules (fun ms => noU_listModules W ms)

/-- C10: starting from a queue whose service entries all carry a handled
status (in particular from the fresh, empty execution context every public
operation begins with), every public operation (start, stop, build,
migrate, value, list) keeps the staged queue free of Unknown service
statuses — stageServiceState is only ever called with Online or Offline —
and can never fail with the unhandled-status error of executeStaged: that
default switch branch is unreachable through the public interface. -/
theorem C10_unknown_status_unreachable (W : World) (fuel : Nat) (n v : String)
    (s : S) (hinv : ∀ c ∈ s.ctx.stagedStates, goodChange c) :
    ((∀ e s', start W fuel n s = .err e s' → e ≠ unhandledMsg) ∧
      (∀ c ∈ ((start W fuel n s).state).ctx.stagedStates, goodChange c)) ∧
    ((∀ e s', stop W n s = .err e s' → e ≠ unhandledMsg) ∧
      (∀ c ∈ ((stop W n s).state).ctx.stagedStates, goodChange c)) ∧
    ((∀ e s', build W n s = .err e s' → e ≠ unhandledMsg) ∧
      (∀ c ∈ ((build W n s).state).ctx.stagedStates, goodChange c)) ∧
    ((∀ e s', migrate W n s = .err e s' → e ≠ unhandledMsg) ∧
      (∀ c ∈ ((migrate W n s).state).ctx.stagedStates, goodChange c)) ∧
    ((∀ e s', provideValueInner W v s = .err e s' → e ≠ unhandledMsg) ∧
      (∀ e s', provideValue W v s = .err e s' → e ≠ unhandledMsg) ∧
      (∀ c ∈ ((provideValue W v s).state).ctx.stagedStates, goodChange c)) ∧
    ((∀ e s', list W s = .err e s' → e ≠ unhandledMsg) ∧
      (∀ c ∈ ((list W s).state).ctx.stagedStates, goodChange c)) :=
  ⟨⟨noUI_start W fuel n s hinv, goodPres_start W fuel n s hinv⟩,
   ⟨noUI_stop W n s hinv, goodPres_stop W n s hinv⟩,
   ⟨noUI_build W n s hinv, goodPres_build W n s hinv⟩,
   ⟨noUI_migrate W n s hinv, goodPres_migrate W n s hinv⟩,
   ⟨noUI_provideValueInner W v s hinv, noU_provideValue W v s,
    goodPres_provideValue W v s hinv⟩,
   ⟨noU_list W s, goodPres_of_keepCtx (keepCtx_list W) s hinv⟩⟩

/-- Witness for C10 on a concrete initialized state with an empty staged
queue. -/
theorem C10_unknown_status_unreachable_witness :
    ((∀ e s', start exW 3 "svcA" exSC1 = .err e s' → e ≠ unhandledMsg) ∧
      (∀ c ∈ ((start exW 3 "svcA" exSC1).state).ctx.stagedStates, goodChange c)) ∧
    ((∀ e s', stop exW "svcA" exSC1 = .err e s' → e ≠ unhandledMsg) ∧
      (∀ c ∈ ((stop exW "svcA" exSC1).state).ctx.stagedStates, goodChange c)) ∧
    ((∀ e s', build exW "svcA" exSC1 = .err e s' → e ≠ unhandledMsg) ∧
      (∀ c ∈ ((build exW "svcA" exSC1).state).ctx.stagedStates, goodChange c)) ∧
    ((∀ e s', migrate exW "svcA" exSC1 = .err e s' → e ≠ unhandledMsg) ∧
      (∀ c ∈ ((migrate exW "svcA" exSC1).state).ctx.stagedStates, goodChange c)) ∧
    ((∀ e s', provideValueInner exW "svcA.port" exSC1 = .err e s' → e ≠ unhandledMsg) ∧
      (∀ e s', provideValue exW "svcA.port" exSC1 = .err e s' → e ≠ unhandledMsg) ∧
      (∀ c ∈ ((provideValue exW "svcA.port" exSC1).state).ctx.stagedStates, goodChange c)) ∧
    ((∀ e s', list exW exSC1 = .err e s' → e ≠ unhandledMsg) ∧
      (∀ c ∈ ((list exW exSC1).state).ctx.stagedStates, goodChange c)) :=
  C10_unknown_status_unreachable exW 3 "svcA" "svcA.port" exSC1 (by decide)

end Bbox
